import Mathlib

/-! # TTLxRL plugin: WebSocket transport and game-state detector

A shallow embedding of `plugin/src/WebSocketClient.cpp` and
`plugin/src/GameStateDetector.cpp`, followed by theorems about it.

Conventions of the embedding:

* a `std::string` is a list of `char` values, each kept as its byte value
  (a natural number below 256); a cast `(char)e` keeps `e % 256`;
* `size_t` is 64 bits wide, `int` is 32 bits wide;
* member functions become functions on an explicit object state, and what
  they do to the outside (socket writes, callback invocations, `rand()`)
  is recorded in an explicit `World`;
* console output (`std::cout`) is not modelled.
-/

namespace TTLxRL

/-! ## Strings and bytes -/

/-- A `std::string`, as the list of its byte values. -/
abbrev Str := List Nat

/-- Every element is a byte value. -/
def Str.WellFormed (s : Str) : Prop := ∀ b ∈ s, b < 256

/-- The bytes of an ASCII string literal of the source. -/
def lit (s : String) : Str := s.toList.map Char.toNat

/-- The cast `(char)e`: the low eight bits. -/
def toChar (e : Nat) : Nat := e % 256

/-- A length kept in a `size_t`: 64 bits. -/
def toSizeT (n : Nat) : Nat := n % 2 ^ 64

/-- The cast `(int)e` of an unsigned value: 32 bits, two's complement. -/
def toInt (n : Nat) : Int :=
  if n % 2 ^ 32 < 2 ^ 31 then (n % 2 ^ 32 : Nat) else ((n % 2 ^ 32 : Nat) : Int) - 2 ^ 32

/-! ## `WebSocketClient::sendMessage`: the frame -/

/-- The bytes `sendMessage` appends after the first byte to carry the payload
length (lines 237-248): one byte below 126, marker 126 and two bytes below
65536, marker 127 and the loop `for (int i = 7; i >= 0; --i)` otherwise. -/
def lengthBytes (payloadLen : Nat) : Str :=
  if payloadLen < 126 then
    [toChar (0x80 ||| payloadLen)]
  else if payloadLen < 65536 then
    [toChar 126, toChar ((payloadLen >>> 8) &&& 0xFF), toChar (payloadLen &&& 0xFF)]
  else
    toChar 127 ::
      ([7, 6, 5, 4, 3, 2, 1, 0].map fun i => toChar ((payloadLen >>> (i * 8)) &&& 0xFF))

/-- The loop of lines 254-256: byte `i` of the message XORed with
`maskKey[i % 4]`, cast to `char`. -/
def maskedPayload (message maskKey : Str) : Str :=
  (List.range message.length).map fun i =>
    toChar (message.getD i 0 ^^^ maskKey.getD (i % 4) 0)

/-- The frame `sendMessage` builds for `message` with the mask key `maskKey`
(lines 226-256). -/
def buildFrame (message maskKey : Str) : Str :=
  let frame : Str := [toChar 0x81]
  let payloadLen := toSizeT message.length
  let frame := frame ++ lengthBytes payloadLen
  let frame := frame ++ maskKey.take 4
  frame ++ maskedPayload message maskKey

/-- Big-endian value of a byte sequence. -/
def beValue (bs : Str) : Nat := bs.foldl (fun acc b => acc * 256 + b) 0

/-! ## `std::string` operations used by the URL parser -/

/-- The call `s.find(c)`: the position of the first `c`, or `none` for
`std::string::npos`. -/
def find (s : Str) (c : Nat) : Option Nat :=
  match s with
  | [] => none
  | x :: xs => if x = c then some 0 else (find xs c).map (· + 1)

/-- The call `s.substr(pos, count)`; `none` is the `std::out_of_range`
exception thrown when `pos > s.size()`. -/
def substr (s : Str) (pos count : Nat) : Option Str :=
  if pos > s.length then none else some ((s.drop pos).take count)

/-- The call `s.substr(pos)`; `none` is the `std::out_of_range` exception. -/
def substrFrom (s : Str) (pos : Nat) : Option Str :=
  if pos > s.length then none else some (s.drop pos)

/-! ## The client object and the outside world -/

/-- The data members of `WebSocketClient` (WebSocketClient.h, lines 40-54).
`sock = none` is `INVALID_SOCKET`; `threadJoinable` is
`networkThread.joinable()`; for each callback the state records whether a
callable was registered. -/
structure WebSocketClient where
  websocketUrl : Str
  host : Str
  port : Str
  path : Str
  sock : Option Nat
  threadJoinable : Bool
  running : Bool
  connected : Bool
  onConnected : Bool
  onDisconnected : Bool
  onError : Bool
  deriving DecidableEq, Repr

/-- One call `send(sock, buf, len, 0)`. -/
structure SendCall where
  sock : Option Nat
  buf : Str
  len : Int
  deriving DecidableEq, Repr

/-- What the client has done to the outside: the `send` calls and the
`closesocket` calls in order, the number of thread joins, and the
invocations of the three callbacks. -/
structure World where
  sends : List SendCall
  closes : List Nat
  joins : Nat
  connectedCalls : Nat
  disconnectedCalls : Nat
  errorCalls : List Str
  deriving DecidableEq, Repr

/-- What the outside answers during one `sendMessage`: the successive
results of `rand()` and whether `send` returns `SOCKET_ERROR`. -/
structure SendEnv where
  rand : Nat → Nat
  sendFails : Bool

/-! ## `WebSocketClient::parseWebSocketUrl` -/

/-- Lines 36-61. The result is `none` if a `substr` call throws; otherwise the
returned `bool` and the object after the call. -/
def parseWebSocketUrl (c : WebSocketClient) (url : Str) :
    Option (Bool × WebSocketClient) := do
  let scheme ← substr url 0 5
  if scheme ≠ lit "ws://" then
    return (false, c)
  let remaining ← substrFrom url 5
  let (c, remaining) ←
    match find remaining '/'.toNat with
    | some slashPos => do
        let p ← substrFrom remaining slashPos
        let r ← substr remaining 0 slashPos
        pure ({ c with path := p }, r)
    | none => pure ({ c with path := lit "/" }, remaining)
  match find remaining ':'.toNat with
  | some colonPos => do
      let h ← substr remaining 0 colonPos
      let p ← substrFrom remaining (colonPos + 1)
      return (true, { c with host := h, port := p })
  | none =>
      return (true, { c with host := remaining, port := lit "80" })

/-! ## `WebSocketClient::sendMessage` and `sendJsonMessage` -/

/-- Lines 230-233: four calls of `rand() % 256`, stored as `unsigned char`. -/
def genMaskKey (env : SendEnv) : Str :=
  (List.range 4).map fun i => toChar (env.rand i % 256)

/-- Lines 219-264. -/
def sendMessage (c : WebSocketClient) (w : World) (env : SendEnv) (message : Str) :
    WebSocketClient × World :=
  if !c.connected then
    (c, w)
  else
    let maskKey := genMaskKey env
    let frame := buildFrame message maskKey
    let w := { w with sends := w.sends ++ [⟨c.sock, frame, toInt (toSizeT frame.length)⟩] }
    if env.sendFails then
      ({ c with connected := false }, w)
    else
      (c, w)

/-- Decimal digits of `n`, most significant first; `fuel` bounds the number
of digits. -/
def decimalDigits : Nat → Nat → Str
  | 0, _ => []
  | fuel + 1, n =>
    if n < 10 then [48 + n] else decimalDigits fuel (n / 10) ++ [48 + n % 10]

/-- What `operator<<` writes for a `long long` into a fresh `stringstream`
(classic locale, default flags): decimal, with a leading minus sign for
negative values. -/
def showLongLong (t : Int) : Str :=
  if t < 0 then '-'.toNat :: decimalDigits (t.natAbs + 1) t.natAbs
  else decimalDigits (t.natAbs + 1) t.natAbs

/-- The text line 269 writes into `jsonStream`. -/
def jsonText (state : Str) (timestamp : Int) : Str :=
  lit "\x7b\"state\":\"" ++ state ++ lit "\",\"timestamp\":" ++ showLongLong timestamp ++ lit "\x7d"

/-- Lines 267-272. -/
def sendJsonMessage (c : WebSocketClient) (w : World) (env : SendEnv)
    (state : Str) (timestamp : Int) : WebSocketClient × World :=
  sendMessage c w env (jsonText state timestamp)

/-! ## `WebSocketClient::base64Encode` and `generateWebSocketKey` -/

/-- The alphabet `chars` of line 174. -/
def base64Chars : Str :=
  lit "ABCDEFGHIJKLMNOPQRSTUVWXYZabcdefghijklmnopqrstuvwxyz0123456789+/"

/-- A result of `int` arithmetic, brought back into 32 bits, two's
complement. -/
def wrapInt (x : Int) : Int := (x + 2 ^ 31) % 2 ^ 32 - 2 ^ 31

/-- The expression `chars[(v >> k) & 0x3F]`. -/
def base64Char (v : Int) (k : Nat) : Nat :=
  base64Chars.getD ((v >>> k) % 64).toNat 0

/-- The loop `while (valb >= 0)` of lines 181-184, on `(result, valb)`; every
round takes 6 from `valb`, so `valb + 1` rounds of fuel are never used up. -/
def base64Emit : Nat → Int → Int → Str → Str × Int
  | 0, _, valb, result => (result, valb)
  | fuel + 1, val, valb, result =>
    if valb ≥ 0 then
      base64Emit fuel val (valb - 6) (result ++ [base64Char val valb.toNat])
    else
      (result, valb)

/-- One round of the loop `for (unsigned char c : input)`, lines 178-185, on
`(val, valb, result)`. -/
def base64Step (st : Int × Int × Str) (c : Nat) : Int × Int × Str :=
  let val := wrapInt (wrapInt (st.1 * 256) + c)
  let valb := st.2.1 + 8
  let r := base64Emit (valb.toNat + 1) val valb st.2.2
  (val, r.2, r.1)

/-- The loop `while (result.size() % 4) result.push_back('=')`. -/
def base64Pad : Nat → Str → Str
  | 0, result => result
  | fuel + 1, result =>
    if result.length % 4 ≠ 0 then base64Pad fuel (result ++ ['='.toNat]) else result

/-- Lines 173-191. -/
def base64Encode (input : Str) : Str :=
  let st := input.foldl base64Step (0, -6, [])
  let val := st.1
  let valb := st.2.1
  let result := st.2.2
  let result :=
    if valb > -6 then result ++ [base64Char (wrapInt (val * 256)) (valb + 8).toNat]
    else result
  base64Pad 4 result

/-- What the outside answers during one `connect`: the result of `socket()`
(`none` is `INVALID_SOCKET`), whether `getaddrinfo` and `::connect` fail, the
successive values of `dis(gen)`, whether the `send` of the upgrade request
returns `SOCKET_ERROR`, and the result of the one `recv` (`none` is
`SOCKET_ERROR`, otherwise the bytes received). -/
structure ConnectEnv where
  socketResult : Option Nat
  getaddrinfoFails : Bool
  connectFails : Bool
  randomBytes : Nat → Nat
  sendFails : Bool
  recvResult : Option Str

/-- Lines 159-170. -/
def generateWebSocketKey (env : ConnectEnv) : Str :=
  let key := (List.range 16).map fun i => toChar (env.randomBytes i)
  base64Encode key

/-! ## Connecting and disconnecting -/

/-- The call `s.find(needle) != npos` is `(findStr s needle).isSome`; the
value is the position of the first occurrence. -/
def findStr : Str → Str → Option Nat
  | [], needle => if needle.isEmpty then some 0 else none
  | x :: t, needle =>
    if needle.isPrefixOf (x :: t) then some 0 else (findStr t needle).map (· + 1)

/-- The constructor, lines 19-29, before the call of `parseWebSocketUrl`. -/
def WebSocketClient.init (url : Str) : WebSocketClient :=
  { websocketUrl := url, host := [], port := [], path := [], sock := none,
    threadJoinable := false, running := false, connected := false,
    onConnected := false, onDisconnected := false, onError := false }

/-- The constructor, lines 19-29: a failed parse is only logged. -/
def WebSocketClient.new (url : Str) : Option WebSocketClient := do
  let r ← parseWebSocketUrl (WebSocketClient.init url) url
  return r.2

/-- An empty record of effects. -/
def World.empty : World :=
  { sends := [], closes := [], joins := 0, connectedCalls := 0,
    disconnectedCalls := 0, errorCalls := [] }

/-- Lines 317-322. -/
def cleanup (c : WebSocketClient) (w : World) : WebSocketClient × World :=
  match c.sock with
  | some s => ({ c with sock := none }, { w with closes := w.closes ++ [s] })
  | none => (c, w)

/-- Lines 101-128. -/
def connectToServer (c : WebSocketClient) (w : World) (env : ConnectEnv) :
    Bool × WebSocketClient × World :=
  let c := { c with sock := env.socketResult }
  match c.sock with
  | none => (false, c, w)
  | some s =>
    if env.getaddrinfoFails then
      (false, { c with sock := none }, { w with closes := w.closes ++ [s] })
    else if env.connectFails then
      (false, { c with sock := none }, { w with closes := w.closes ++ [s] })
    else
      (true, c, w)

/-- The upgrade request of lines 134-140. -/
def handshakeRequest (c : WebSocketClient) (key : Str) : Str :=
  let request := lit "GET " ++ c.path ++ lit " HTTP/1.1\r\n"
  let request := request ++ (lit "Host: " ++ c.host ++ lit ":" ++ c.port ++ lit "\r\n")
  let request := request ++ lit "Upgrade: websocket\r\n"
  let request := request ++ lit "Connection: Upgrade\r\n"
  let request := request ++ (lit "Sec-WebSocket-Key: " ++ key ++ lit "\r\n")
  let request := request ++ lit "Sec-WebSocket-Version: 13\r\n"
  request ++ lit "\r\n"

/-- Lines 131-156. The buffer holds at most 1023 received bytes, and
`std::string response(buffer)` stops at the first zero byte. -/
def performWebSocketHandshake (c : WebSocketClient) (w : World) (env : ConnectEnv) :
    Bool × World :=
  let key := generateWebSocketKey env
  let request := handshakeRequest c key
  let w := { w with sends := w.sends ++ [⟨c.sock, request, toInt (toSizeT request.length)⟩] }
  if env.sendFails then
    (false, w)
  else
    match env.recvResult with
    | none => (false, w)
    | some received =>
      let buffer := received.take 1023
      if buffer.length > 0 then
        let response := buffer.takeWhile (· ≠ 0)
        ((findStr response (lit "HTTP/1.1 101")).isSome, w)
      else
        (false, w)

/-- Lines 64-98. The result is `none` when the call does not return: an
exception out of `parseWebSocketUrl`, or `std::terminate` from assigning to a
`networkThread` that is still joinable. -/
def connect (c : WebSocketClient) (w : World) (env : ConnectEnv) :
    Option (Bool × WebSocketClient × World) := do
  if c.running then
    return (c.connected, c, w)
  let (ok, c) ← parseWebSocketUrl c c.websocketUrl
  if !ok then
    return (false, c, w)
  let (ok, c, w) := connectToServer c w env
  if !ok then
    return (false, c, w)
  let (ok, w) := performWebSocketHandshake c w env
  if !ok then
    let (c, w) := cleanup c w
    return (false, c, w)
  let c := { c with connected := true, running := true }
  if c.threadJoinable then
    none
  else
    let c := { c with threadJoinable := true }
    let w := if c.onConnected then { w with connectedCalls := w.connectedCalls + 1 } else w
    return (true, c, w)

/-- Lines 194-211. -/
def disconnect (c : WebSocketClient) (w : World) : WebSocketClient × World :=
  if !c.running then
    (c, w)
  else
    let c := { c with running := false, connected := false }
    let (c, w) :=
      if c.threadJoinable then
        ({ c with threadJoinable := false }, { w with joins := w.joins + 1 })
      else
        (c, w)
    let (c, w) := cleanup c w
    let w :=
      if c.onDisconnected then { w with disconnectedCalls := w.disconnectedCalls + 1 } else w
    (c, w)

/-- One round of the receive loop, lines 293-313, for the result of its
`recv` (`none` is `SOCKET_ERROR`, and then `wouldBlock` tells whether
`WSAGetLastError()` is `WSAEWOULDBLOCK`). -/
def networkLoopRound (c : WebSocketClient) (recvResult : Option Str) (wouldBlock : Bool) :
    WebSocketClient :=
  if c.running && c.connected then
    match recvResult with
    | some received =>
      if (received.take 1023).length > 0 then c else { c with connected := false }
    | none => if wouldBlock then c else { c with connected := false }
  else
    c

/-! ## The game-state detector -/

/-- The enumeration `GameState` of GameStatePlugin.h, lines 15-21. -/
inductive GameState where
  | inMenu
  | inGame
  | inReplay
  | gamePaused
  | unknown
  deriving DecidableEq, Repr

/-- A C++ `float`, as its IEEE 754 binary32 bit pattern. -/
structure Float32 where
  bits : Nat
  deriving DecidableEq, Repr

/-- The comparison `f == 0.0f`: true for `+0.0` and for `-0.0`, that is when
all bits but the sign bit are zero. -/
def Float32.eqZero (f : Float32) : Bool := f.bits % 2 ^ 31 == 0

/-- What the detector reads from a `ServerWrapper`. -/
structure ServerWrapper where
  isNull : Bool
  gameSpeed : Float32
  deriving DecidableEq, Repr

/-- What the detector reads from the host's `GameWrapper`. -/
structure GameWrapper where
  isInGame : Bool
  isInReplay : Bool
  gameEventAsServer : ServerWrapper
  deriving DecidableEq, Repr

/-- What `bakkesModPlugin` points to at the time of a call; a null
`gameWrapper` is `none`. A null `bakkesModPlugin` is `none : Option
BakkesModPlugin`. -/
structure BakkesModPlugin where
  gameWrapper : Option GameWrapper
  deriving DecidableEq, Repr

/-- The data members of `GameStateDetector` (GameStateDetector.h, lines
40-49), the plugin pointer apart, which every operation receives as the
host it reads; `onStateChanged` records whether a callable was set. -/
structure GameStateDetector where
  currentState : GameState
  isDetecting : Bool
  usePollingMode : Bool
  pollingInterval : Int
  onStateChanged : Bool
  deriving DecidableEq, Repr

/-- The constructor, lines 11-14. -/
def GameStateDetector.new : GameStateDetector :=
  { currentState := GameState.unknown, isDetecting := false, usePollingMode := false,
    pollingInterval := 200, onStateChanged := false }

/-- Lines 221-236. The result is `none` when the call dereferences a null
`gameWrapper`. -/
def isGamePaused (host : Option BakkesModPlugin) : Option Bool :=
  match host with
  | none => some false
  | some plugin =>
    match plugin.gameWrapper with
    | none => none
    | some gameWrapper =>
      if gameWrapper.isInGame then
        let server := gameWrapper.gameEventAsServer
        if !server.isNull then
          some server.gameSpeed.eqZero
        else
          some false
      else
        some false

/-- Lines 140-189. The result is `none` when the call dereferences a null
pointer. -/
def detectGameState (host : Option BakkesModPlugin) : Option GameState :=
  match host with
  | none => some GameState.inMenu
  | some plugin =>
    match plugin.gameWrapper with
    | none => some GameState.inMenu
    | some gameWrapper =>
      let isInGame := gameWrapper.isInGame
      let isInReplay := gameWrapper.isInReplay
      if !isInGame then
        some GameState.inMenu
      else if isInReplay then
        some GameState.inReplay
      else do
        let paused ← isGamePaused host
        if paused then
          return GameState.gamePaused
        let server := gameWrapper.gameEventAsServer
        if !server.isNull then
          return GameState.inGame
        if isInGame then
          return GameState.inGame
        return GameState.inMenu

/-- Lines 268-276, on the detector and the list of the arguments the
transition callback has been invoked with so far. -/
def updateState (d : GameStateDetector) (calls : List GameState) (newState : GameState) :
    GameStateDetector × List GameState :=
  if newState ≠ d.currentState then
    let d := { d with currentState := newState }
    if d.onStateChanged then (d, calls ++ [newState]) else (d, calls)
  else
    (d, calls)

/-- Lines 55-58. -/
def detectOnce (d : GameStateDetector) (calls : List GameState)
    (host : Option BakkesModPlugin) : Option (GameStateDetector × List GameState) := do
  let newState ← detectGameState host
  return updateState d calls newState

/-- The tick hook, lines 82-89. -/
def onTick (d : GameStateDetector) (calls : List GameState)
    (host : Option BakkesModPlugin) : Option (GameStateDetector × List GameState) :=
  if !d.usePollingMode && d.isDetecting then do
    let newState ← detectGameState host
    if newState ≠ d.currentState then
      return updateState d calls newState
    else
      return (d, calls)
  else
    some (d, calls)

/-- One round of the body of `pollingLoop`, lines 281-284 (the sleep is not
modelled). -/
def pollingRound (d : GameStateDetector) (calls : List GameState)
    (host : Option BakkesModPlugin) : Option (GameStateDetector × List GameState) := do
  let newState ← detectGameState host
  return updateState d calls newState

/-- Lines 239-241. -/
def onMatchStarted (d : GameStateDetector) (calls : List GameState) :
    GameStateDetector × List GameState :=
  updateState d calls GameState.inGame

/-- Lines 243-245. -/
def onMatchEnded (d : GameStateDetector) (calls : List GameState) :
    GameStateDetector × List GameState :=
  updateState d calls GameState.inMenu

/-- Lines 247-249. -/
def onReplayStarted (d : GameStateDetector) (calls : List GameState) :
    GameStateDetector × List GameState :=
  updateState d calls GameState.inReplay

/-- Lines 251-255. -/
def onReplayEnded (d : GameStateDetector) (calls : List GameState)
    (host : Option BakkesModPlugin) : Option (GameStateDetector × List GameState) := do
  let newState ← detectGameState host
  return updateState d calls newState

/-- Lines 257-265. -/
def onPauseChanged (d : GameStateDetector) (calls : List GameState)
    (host : Option BakkesModPlugin) (isPaused : Bool) :
    Option (GameStateDetector × List GameState) :=
  if isPaused then
    some (updateState d calls GameState.gamePaused)
  else do
    let newState ← detectGameState host
    return updateState d calls newState

/-- The host signals of the specification, section 4.3. -/
structure Signals where
  inSession : Bool
  inReplaySegment : Bool
  sessionSpeed : Float32
  hasActiveServerContext : Bool
  deriving DecidableEq, Repr

/-- A host with a plugin and a game wrapper present that reports the given
signals. -/
def Signals.host (s : Signals) : Option BakkesModPlugin :=
  let server : ServerWrapper :=
    { isNull := !s.hasActiveServerContext, gameSpeed := s.sessionSpeed }
  let gameWrapper : GameWrapper :=
    { isInGame := s.inSession, isInReplay := s.inReplaySegment, gameEventAsServer := server }
  some { gameWrapper := some gameWrapper }

/-- The first-match ladder in the words of the specification, section 4.3:
not in session gives the menu; otherwise a replay segment gives the replay;
otherwise a server context with speed zero gives paused; otherwise in
session. -/
def detectLadder (s : Signals) : GameState :=
  if !s.inSession then GameState.inMenu
  else if s.inReplaySegment then GameState.inReplay
  else if s.hasActiveServerContext && s.sessionSpeed.eqZero then GameState.gamePaused
  else GameState.inGame

/-! ## Runs of the client -/

/-- The operations on a client, each with what the outside answers during
it; `networkLoopRound` is one round of the receive thread. -/
inductive ClientOp where
  | connect (env : ConnectEnv)
  | disconnect
  | sendMessage (env : SendEnv) (message : Str)
  | sendJsonMessage (env : SendEnv) (state : Str) (timestamp : Int)
  | networkLoopRound (recvResult : Option Str) (wouldBlock : Bool)

/-- A client, the record of its effects, and the number of `connect` calls so
far that established a connection (returned `true` on a client that was not
running). -/
structure ClientRun where
  client : WebSocketClient
  world : World
  connects : Nat

/-- One operation; `none` when the operation does not return. -/
def ClientRun.step (r : ClientRun) : ClientOp → Option ClientRun
  | ClientOp.connect env => do
    let res ← connect r.client r.world env
    let established := !r.client.running && res.1
    return ⟨res.2.1, res.2.2, if established then r.connects + 1 else r.connects⟩
  | ClientOp.disconnect =>
    let res := disconnect r.client r.world
    some ⟨res.1, res.2, r.connects⟩
  | ClientOp.sendMessage env message =>
    let res := sendMessage r.client r.world env message
    some ⟨res.1, res.2, r.connects⟩
  | ClientOp.sendJsonMessage env state timestamp =>
    let res := sendJsonMessage r.client r.world env state timestamp
    some ⟨res.1, res.2, r.connects⟩
  | ClientOp.networkLoopRound recvResult wouldBlock =>
    some ⟨networkLoopRound r.client recvResult wouldBlock, r.world, r.connects⟩

/-- A sequence of operations, from left to right. -/
def ClientRun.steps (r : ClientRun) : List ClientOp → Option ClientRun
  | [] => some r
  | op :: ops => (r.step op).bind fun r1 => r1.steps ops

/-- The balance between connections and disconnected-callback invocations:
the thread is joinable exactly while the client runs, a disconnected callback
is registered, and the callback has been invoked once for every established
connection but the one that is still running; `d0` is the count at the
start. -/
def ClientRun.Balanced (d0 : Nat) (r : ClientRun) : Prop :=
  r.client.threadJoinable = r.client.running ∧ r.client.onDisconnected = true ∧
    r.world.disconnectedCalls + (if r.client.running then 1 else 0) = d0 + r.connects

/-! ## The message text in the words of the specification -/

/-- A text between double quotes. -/
def quoted (s : Str) : Str := lit "\"" ++ s ++ lit "\""

/-- The number a text of decimal digits denotes. -/
def decimalValue (digits : Str) : Nat :=
  digits.foldl (fun acc b => acc * 10 + (b - '0'.toNat)) 0

/-- An object with the keys `state` and `timestamp`, in that order, the state
as a quoted string and the timestamp as the given number text, written with
the white space `sp` after each colon and after the comma. -/
def stateObject (sp state number : Str) : Str :=
  lit "\x7b" ++ quoted (lit "state") ++ lit ":" ++ sp ++ quoted state ++ lit "," ++ sp ++
    quoted (lit "timestamp") ++ lit ":" ++ sp ++ number ++ lit "\x7d"

/-! ## JSON texts for objects of strings and integers (RFC 8259) -/

/-- The value of a member: a string or an integer. -/
inductive JsonValue where
  | str (s : Str)
  | num (n : Int)
  deriving DecidableEq, Repr

/-- JSON white space: space, tab, line feed, carriage return. -/
def jsonIsWs (b : Nat) : Bool := b == 32 || b == 9 || b == 10 || b == 13

/-- The text after leading white space. -/
def jsonSkip (s : Str) : Str := s.dropWhile jsonIsWs

/-- A decimal digit, `0` (48) to `9` (57). -/
def jsonIsDigit (b : Nat) : Bool := decide (48 ≤ b) && decide (b ≤ 57)

/-- The characters of a string after its opening quote, up to the closing
quote (34), and the text after it. A backslash (92) starts an escape sequence
and a byte below 32 is a control character: this reader gives `none` for
both, as for a string that is not closed. -/
def jsonReadChars : Str → Option (Str × Str)
  | [] => none
  | b :: rest =>
    if b = 34 then some ([], rest)
    else if b = 92 ∨ b < 32 then none
    else (jsonReadChars rest).map fun r => (b :: r.1, r.2)

/-- A string: a quote (34), characters, a quote. -/
def jsonReadString : Str → Option (Str × Str)
  | [] => none
  | b :: rest => if b = 34 then jsonReadChars rest else none

/-- An integer: an optional minus sign (45) and decimal digits without a
leading zero; a fraction or an exponent after the digits gives `none`. -/
def jsonReadInt (s : Str) : Option (Int × Str) :=
  let negative : Bool := s.head? == some 45
  let s1 := if negative then s.drop 1 else s
  let digits := s1.takeWhile jsonIsDigit
  let rest := s1.dropWhile jsonIsDigit
  if digits = [] then none
  else if digits.head? = some 48 ∧ 1 < digits.length then none
  else if rest.head? = some 46 ∨ rest.head? = some 101 ∨ rest.head? = some 69 then none
  else some (if negative then -(decimalValue digits : Int) else (decimalValue digits : Int), rest)

/-- A member value: a string when the text starts with a quote, otherwise an
integer. -/
def jsonReadValue (s : Str) : Option (JsonValue × Str) :=
  if s.head? = some 34 then (jsonReadString s).map fun r => (JsonValue.str r.1, r.2)
  else (jsonReadInt s).map fun r => (JsonValue.num r.1, r.2)

/-- The members of an object after its opening brace, up to the closing brace
(125): `key : value` separated by commas (44), with white space allowed
around every token; `fuel` bounds the number of members. -/
def jsonReadMembers : Nat → Str → Option (List (Str × JsonValue) × Str)
  | 0, _ => none
  | fuel + 1, s =>
    match jsonReadString (jsonSkip s) with
    | none => none
    | some (key, s1) =>
      match jsonSkip s1 with
      | [] => none
      | b :: s2 =>
        if b ≠ 58 then none
        else
          match jsonReadValue (jsonSkip s2) with
          | none => none
          | some (v, s3) =>
            match jsonSkip s3 with
            | [] => none
            | b :: s4 =>
              if b = 125 then some ([(key, v)], s4)
              else if b = 44 then
                (jsonReadMembers fuel s4).map fun r => ((key, v) :: r.1, r.2)
              else none

/-- The members, in order, of a text that is one JSON object with at least
one member whose values are strings and integers; `none` for any other
text. -/
def jsonReadObject (text : Str) : Option (List (Str × JsonValue)) :=
  match jsonSkip text with
  | [] => none
  | b :: s =>
    if b ≠ 123 then none
    else
      match jsonReadMembers text.length s with
      | none => none
      | some (members, rest) => if jsonSkip rest = [] then some members else none

/-! ## The port in the words of the specification -/

/-- An integer from 1 to 65535, written in decimal digits. -/
def IsPortNumber (port : Str) : Prop :=
  port ≠ [] ∧ (∀ b ∈ port, '0'.toNat ≤ b ∧ b ≤ '9'.toNat) ∧
    1 ≤ decimalValue port ∧ decimalValue port ≤ 65535

/-! ## Base64 in the words of RFC 4648 -/

/-- The alphabet of RFC 4648, table 1: the character for the value `v` is at
position `v`. -/
def rfc4648Alphabet : Str :=
  lit "ABCDEFGHIJKLMNOPQRSTUVWXYZabcdefghijklmnopqrstuvwxyz0123456789+/"

/-- The character that encodes a 6-bit value. -/
def rfc4648Char (v : Nat) : Nat := rfc4648Alphabet.getD v 0

/-- The 6-bit value a character encodes, if it is in the alphabet. -/
def rfc4648Value (ch : Nat) : Option Nat := find rfc4648Alphabet ch

/-- The encoding of RFC 4648, section 4: every group of three bytes gives
four characters for its four 6-bit groups; a final group of one byte gives two
characters and `==`, a final group of two bytes three characters and `=`. -/
def rfc4648Encode : Str → Str
  | [] => []
  | [a] => [rfc4648Char (a / 4), rfc4648Char (a % 4 * 16), '='.toNat, '='.toNat]
  | [a, b] =>
    [rfc4648Char (a / 4), rfc4648Char (a % 4 * 16 + b / 16), rfc4648Char (b % 16 * 4),
      '='.toNat]
  | a :: b :: c :: rest =>
    rfc4648Char (a / 4) :: rfc4648Char (a % 4 * 16 + b / 16) ::
      rfc4648Char (b % 16 * 4 + c / 64) :: rfc4648Char (c % 64) :: rfc4648Encode rest

/-- The decoding of RFC 4648, section 4: every group of four characters gives
three bytes; a group that ends in `=` must be the last one and gives two
bytes, or one byte when it ends in `==`. The result is `none` for a text that
is not an encoding. -/
def rfc4648Decode : Str → Option Str
  | [] => some []
  | c1 :: c2 :: c3 :: c4 :: rest =>
    if c4 = '='.toNat then
      if rest ≠ [] then none
      else if c3 = '='.toNat then do
        let v1 ← rfc4648Value c1
        let v2 ← rfc4648Value c2
        pure [v1 * 4 + v2 / 16]
      else do
        let v1 ← rfc4648Value c1
        let v2 ← rfc4648Value c2
        let v3 ← rfc4648Value c3
        pure [v1 * 4 + v2 / 16, v2 % 16 * 16 + v3 / 4]
    else do
      let v1 ← rfc4648Value c1
      let v2 ← rfc4648Value c2
      let v3 ← rfc4648Value c3
      let v4 ← rfc4648Value c4
      let tail ← rfc4648Decode rest
      pure ((v1 * 4 + v2 / 16) :: (v2 % 16 * 16 + v3 / 4) :: (v3 % 4 * 64 + v4) :: tail)
  | _ => none

/-! ## Example objects -/

/-- A client in the state after a successful `connect`, with the socket 7 and
an error callback registered. -/
def connectedClient : WebSocketClient :=
  { WebSocketClient.init [] with
    connected := true, running := true, threadJoinable := true, sock := some 7,
    onError := true }

/-- An outside whose `rand()` returns 0 and whose `send` fails. -/
def failingSend : SendEnv := ⟨fun _ => 0, true⟩

/-- An outside that gives the socket 7, resolves and connects, draws zeros
for the nonce, takes the upgrade request and answers with `received`. -/
def serverAnswer (received : Str) : ConnectEnv :=
  ⟨some 7, false, false, fun _ => 0, false, some received⟩

/-! ## Lemmas on bytes -/

theorem toSizeT_of_lt {n : Nat} (h : n < 2 ^ 64) : toSizeT n = n := by
  unfold toSizeT
  exact Nat.mod_eq_of_lt h

theorem and_0xFF (n : Nat) : n &&& 0xFF = n % 256 := by
  have h : (0xFF : Nat) = 2 ^ 8 - 1 := by norm_num
  rw [h, Nat.and_pow_two_sub_one_eq_mod]

theorem shiftRight_eq (n k : Nat) : n >>> k = n / 2 ^ k := Nat.shiftRight_eq_div_pow n k

theorem or_0x80_of_lt {n : Nat} (h : n < 128) : 0x80 ||| n = 128 + n := by
  interval_cases n <;> rfl

theorem xor_byte_lt {a b : Nat} (ha : a < 256) (hb : b < 256) : a ^^^ b < 256 := by
  have h : (256 : Nat) = 2 ^ 8 := by norm_num
  rw [h] at ha hb ⊢
  exact Nat.xor_lt_two_pow ha hb

theorem unmask_byte {m k : Nat} (hm : m < 256) (hk : k < 256) :
    toChar (m ^^^ k) ^^^ k = m := by
  unfold toChar
  rw [Nat.mod_eq_of_lt (xor_byte_lt hm hk), Nat.xor_assoc, Nat.xor_self, Nat.xor_zero]

theorem length_maskedPayload (message maskKey : Str) :
    (maskedPayload message maskKey).length = message.length := by
  simp [maskedPayload]

theorem getD_maskedPayload (message maskKey : Str) (i : Nat) (h : i < message.length) :
    (maskedPayload message maskKey).getD i 0 =
      toChar (message.getD i 0 ^^^ maskKey.getD (i % 4) 0) := by
  simp [maskedPayload, List.getD_eq_getElem?_getD, List.getElem?_map, List.getElem?_range h]

theorem beValue_two (a b : Nat) : beValue [a, b] = a * 256 + b := by
  simp [beValue]

theorem beValue_eight (a b c d e f g h : Nat) :
    beValue [a, b, c, d, e, f, g, h] =
      ((((((a * 256 + b) * 256 + c) * 256 + d) * 256 + e) * 256 + f) * 256 + g) * 256 + h := by
  simp [beValue]

theorem be64_value (n : Nat) (h : n < 2 ^ 64) :
    ((((((n / 72057594037927936 % 256 * 256 + n / 281474976710656 % 256) * 256 +
      n / 1099511627776 % 256) * 256 + n / 4294967296 % 256) * 256 +
      n / 16777216 % 256) * 256 + n / 65536 % 256) * 256 + n / 256 % 256) * 256 + n % 256 = n := by
  have e2 : n / 65536 = n / 256 / 256 := by rw [Nat.div_div_eq_div_mul]
  have e3 : n / 16777216 = n / 256 / 256 / 256 := by simp only [Nat.div_div_eq_div_mul]
  have e4 : n / 4294967296 = n / 256 / 256 / 256 / 256 := by simp only [Nat.div_div_eq_div_mul]
  have e5 : n / 1099511627776 = n / 256 / 256 / 256 / 256 / 256 := by
    simp only [Nat.div_div_eq_div_mul]
  have e6 : n / 281474976710656 = n / 256 / 256 / 256 / 256 / 256 / 256 := by
    simp only [Nat.div_div_eq_div_mul]
  have e7 : n / 72057594037927936 = n / 256 / 256 / 256 / 256 / 256 / 256 / 256 := by
    simp only [Nat.div_div_eq_div_mul]
  rw [e2, e3, e4, e5, e6, e7]
  generalize h1 : n / 256 = a1
  generalize h2 : a1 / 256 = a2
  generalize h3 : a2 / 256 = a3
  generalize h4 : a3 / 256 = a4
  generalize h5 : a4 / 256 = a5
  generalize h6 : a5 / 256 = a6
  generalize h7 : a6 / 256 = a7
  have h' : n < 18446744073709551616 := by simpa using h
  omega

theorem buildFrame_eq (message maskKey : Str) (hlen : message.length < 2 ^ 64)
    (hkey : maskKey.length = 4) :
    buildFrame message maskKey =
      0x81 :: (lengthBytes message.length ++ (maskKey ++ maskedPayload message maskKey)) := by
  have hk : maskKey.take 4 = maskKey := List.take_of_length_le (le_of_eq hkey)
  simp [buildFrame, toSizeT_of_lt hlen, hk, toChar]

/-! ## The frame of `sendMessage` -/

theorem genMaskKey_spec (env : SendEnv) :
    (genMaskKey env).length = 4 ∧ (genMaskKey env).WellFormed := by
  refine ⟨by simp [genMaskKey], ?_⟩
  intro b hb
  simp only [genMaskKey, List.mem_map] at hb
  obtain ⟨i, -, rfl⟩ := hb
  unfold toChar
  omega

theorem sendMessage_sends (c : WebSocketClient) (w : World) (env : SendEnv) (message : Str)
    (hc : c.connected = true) :
    (sendMessage c w env message).2.sends =
      w.sends ++ [⟨c.sock, buildFrame message (genMaskKey env),
        toInt (toSizeT (buildFrame message (genMaskKey env)).length)⟩] := by
  unfold sendMessage
  cases env.sendFails <;> simp [hc]

/-- C1: for a message of length `L` (a `size_t`, so below `2 ^ 64`) and a
4-byte mask key, the frame starts with `0x81`; below 126 the next byte has
`L` in its low seven bits and the mask key follows at once; from 126 and
below 65536 the next byte is 126, followed by exactly two bytes that are `L`
in big-endian and then the mask key; from 65536 the next byte is 127,
followed by exactly eight bytes that are `L` in big-endian and then the mask
key. On a connected client `sendMessage` hands to `send` the frame built this
way with the four bytes it draws from `rand()`. -/
theorem sendMessage_frame_length_scheme (message maskKey : Str)
    (hlen : message.length < 2 ^ 64) (hkey : maskKey.length = 4) :
    (buildFrame message maskKey).head? = some 0x81 ∧
    (message.length < 126 →
      (∃ b, (buildFrame message maskKey)[1]? = some b ∧ b < 256 ∧
        b % 128 = message.length) ∧
      (buildFrame message maskKey).drop 2 = maskKey ++ maskedPayload message maskKey) ∧
    (126 ≤ message.length → message.length < 65536 →
      (buildFrame message maskKey)[1]? = some 126 ∧
      (∃ hi lo, ((buildFrame message maskKey).drop 2).take 2 = [hi, lo] ∧
        hi < 256 ∧ lo < 256 ∧ beValue [hi, lo] = message.length) ∧
      (buildFrame message maskKey).drop 4 = maskKey ++ maskedPayload message maskKey) ∧
    (65536 ≤ message.length →
      (buildFrame message maskKey)[1]? = some 127 ∧
      (∃ ext, ((buildFrame message maskKey).drop 2).take 8 = ext ∧ ext.length = 8 ∧
        (∀ b ∈ ext, b < 256) ∧ beValue ext = message.length) ∧
      (buildFrame message maskKey).drop 10 = maskKey ++ maskedPayload message maskKey) ∧
    (∀ (c : WebSocketClient) (w : World) (env : SendEnv), c.connected = true →
      (genMaskKey env).length = 4 ∧
      (sendMessage c w env message).2.sends =
        w.sends ++ [⟨c.sock, buildFrame message (genMaskKey env),
          toInt (toSizeT (buildFrame message (genMaskKey env)).length)⟩]) := by
  refine ⟨?_, ?_, ?_, ?_, fun c w env hc =>
    ⟨(genMaskKey_spec env).1, sendMessage_sends c w env message hc⟩⟩ <;>
    rw [buildFrame_eq message maskKey hlen hkey]
  · rfl
  · intro h
    have h128 : message.length < 128 := by omega
    simp [lengthBytes, h, toChar, or_0x80_of_lt h128]
    omega
  · intro h1 h2
    have h1' : ¬ message.length < 126 := by omega
    simp only [lengthBytes, h1', h2, if_true, if_false, toChar, and_0xFF, shiftRight_eq]
    refine ⟨rfl, ⟨_, _, rfl, ?_, ?_, ?_⟩, rfl⟩
    · omega
    · omega
    · rw [beValue_two]; omega
  · intro h
    have h1 : ¬ message.length < 126 := by omega
    have h2 : ¬ message.length < 65536 := by omega
    simp only [lengthBytes, h1, h2, if_false, toChar, and_0xFF, shiftRight_eq, List.map]
    refine ⟨rfl, ⟨_, rfl, rfl, ?_, ?_⟩, rfl⟩
    · intro b hb
      simp at hb
      omega
    · simp only [List.cons_append, List.drop, List.take, beValue_eight, Nat.reduceMul,
        Nat.reducePow, Nat.pow_zero, Nat.div_one, Nat.mod_mod]
      exact be64_value message.length hlen

/-- Witness for C1: the two-byte message `hi`, a message of 126 bytes and a
message of 65536 bytes, each with the mask key `1 2 3 4`; and `hi` sent on a
connected client. -/
theorem sendMessage_frame_length_scheme_witness :
    ((lit "hi").length < 2 ^ 64 ∧ ([1, 2, 3, 4] : Str).length = 4 ∧
      (buildFrame (lit "hi") [1, 2, 3, 4]).head? = some 0x81 ∧
      (∃ b, (buildFrame (lit "hi") [1, 2, 3, 4])[1]? = some b ∧ b < 256 ∧
        b % 128 = (lit "hi").length) ∧
      (buildFrame (lit "hi") [1, 2, 3, 4]).drop 2
        = [1, 2, 3, 4] ++ maskedPayload (lit "hi") [1, 2, 3, 4]) ∧
    ((buildFrame (List.replicate 126 0) [1, 2, 3, 4])[1]? = some 126 ∧
      (∃ hi lo, ((buildFrame (List.replicate 126 0) [1, 2, 3, 4]).drop 2).take 2 = [hi, lo] ∧
        hi < 256 ∧ lo < 256 ∧ beValue [hi, lo] = (List.replicate 126 0).length) ∧
      (buildFrame (List.replicate 126 0) [1, 2, 3, 4]).drop 4
        = [1, 2, 3, 4] ++ maskedPayload (List.replicate 126 0) [1, 2, 3, 4]) ∧
    ((buildFrame (List.replicate 65536 0) [1, 2, 3, 4])[1]? = some 127 ∧
      (∃ ext, ((buildFrame (List.replicate 65536 0) [1, 2, 3, 4]).drop 2).take 8 = ext ∧
        ext.length = 8 ∧ (∀ b ∈ ext, b < 256) ∧
        beValue ext = (List.replicate 65536 0).length) ∧
      (buildFrame (List.replicate 65536 0) [1, 2, 3, 4]).drop 10
        = [1, 2, 3, 4] ++ maskedPayload (List.replicate 65536 0) [1, 2, 3, 4]) ∧
    (connectedClient.connected = true ∧
      (sendMessage connectedClient World.empty failingSend (lit "hi")).2.sends =
        World.empty.sends ++
          [⟨connectedClient.sock, buildFrame (lit "hi") (genMaskKey failingSend),
            toInt (toSizeT (buildFrame (lit "hi") (genMaskKey failingSend)).length)⟩]) :=
  ⟨⟨by decide, by decide,
      (sendMessage_frame_length_scheme (lit "hi") [1, 2, 3, 4] (by decide) (by decide)).1,
      ((sendMessage_frame_length_scheme (lit "hi") [1, 2, 3, 4] (by decide) (by decide)).2.1
        (by decide)).1,
      ((sendMessage_frame_length_scheme (lit "hi") [1, 2, 3, 4] (by decide) (by decide)).2.1
        (by decide)).2⟩,
    (sendMessage_frame_length_scheme (List.replicate 126 0) [1, 2, 3, 4]
      (by rw [List.length_replicate]; decide) (by decide)).2.2.1
      (by rw [List.length_replicate]) (by rw [List.length_replicate]; decide),
    (sendMessage_frame_length_scheme (List.replicate 65536 0) [1, 2, 3, 4]
      (by rw [List.length_replicate]; decide) (by decide)).2.2.2.1
      (by rw [List.length_replicate]),
    ⟨rfl, ((sendMessage_frame_length_scheme (lit "hi") [1, 2, 3, 4] (by decide)
      (by decide)).2.2.2.2 connectedClient World.empty failingSend rfl).2⟩⟩

/-- C2: for a message `m` of bytes and a 4-byte mask key `k`, the frame ends
with `k` followed by as many payload bytes as `m` has, and XORing payload
byte `i` with `k[i % 4]` gives byte `i` of `m`. On a connected client
`sendMessage` hands to `send` the frame built this way with the key it draws
from `rand()`, which is four bytes. -/
theorem sendMessage_frame_unmask (message maskKey : Str)
    (hkey : maskKey.length = 4) (hk : maskKey.WellFormed) (hm : message.WellFormed) :
    (∃ header masked, buildFrame message maskKey = header ++ maskKey ++ masked ∧
      masked.length = message.length ∧
      ∀ i, i < message.length →
        masked.getD i 0 ^^^ maskKey.getD (i % 4) 0 = message.getD i 0) ∧
    (∀ (c : WebSocketClient) (w : World) (env : SendEnv), c.connected = true →
      (genMaskKey env).length = 4 ∧ (genMaskKey env).WellFormed ∧
      (sendMessage c w env message).2.sends =
        w.sends ++ [⟨c.sock, buildFrame message (genMaskKey env),
          toInt (toSizeT (buildFrame message (genMaskKey env)).length)⟩]) := by
  have hkt : maskKey.take 4 = maskKey := List.take_of_length_le (le_of_eq hkey)
  refine ⟨⟨[toChar 0x81] ++ lengthBytes (toSizeT message.length),
    maskedPayload message maskKey, ?_, length_maskedPayload message maskKey, ?_⟩,
    fun c w env hc => ⟨(genMaskKey_spec env).1, (genMaskKey_spec env).2,
      sendMessage_sends c w env message hc⟩⟩
  · simp [buildFrame, hkt]
  · intro i hi
    rw [getD_maskedPayload message maskKey i hi]
    have h4 : i % 4 < maskKey.length := by omega
    apply unmask_byte
    · rw [List.getD_eq_getElem _ _ hi]
      exact hm _ (List.getElem_mem hi)
    · rw [List.getD_eq_getElem _ _ h4]
      exact hk _ (List.getElem_mem h4)

/-- Witness for C2: the message `hi` with the mask key `1 2 3 4`, and `hi`
sent on a connected client. -/
theorem sendMessage_frame_unmask_witness :
    (∃ header masked, buildFrame (lit "hi") [1, 2, 3, 4] = header ++ [1, 2, 3, 4] ++ masked ∧
      masked.length = (lit "hi").length ∧
      ∀ i, i < (lit "hi").length →
        masked.getD i 0 ^^^ ([1, 2, 3, 4] : Str).getD (i % 4) 0 = (lit "hi").getD i 0) ∧
    (connectedClient.connected = true ∧
      (sendMessage connectedClient World.empty failingSend (lit "hi")).2.sends =
        World.empty.sends ++
          [⟨connectedClient.sock, buildFrame (lit "hi") (genMaskKey failingSend),
            toInt (toSizeT (buildFrame (lit "hi") (genMaskKey failingSend)).length)⟩]) :=
  ⟨(sendMessage_frame_unmask (lit "hi") [1, 2, 3, 4] (by decide)
    (by unfold Str.WellFormed; decide) (by unfold Str.WellFormed; decide)).1,
    rfl, ((sendMessage_frame_unmask (lit "hi") [1, 2, 3, 4] (by decide)
    (by unfold Str.WellFormed; decide) (by unfold Str.WellFormed; decide)).2
      connectedClient World.empty failingSend rfl).2.2⟩

set_option maxRecDepth 100000 in
/-- C3, at a failing input: for a message of 126 bytes the second byte of the
frame is 126, whose bit `0x80` is clear, while the mask key and the masked
payload still follow; at 125 bytes the second byte is `0xFD`, mask bit set. -/
theorem sendMessage_frame_mask_bit_at_126 :
    (buildFrame (List.replicate 126 'a'.toNat) [1, 2, 3, 4])[1]? = some 126 ∧
    126 &&& 0x80 = 0 ∧
    ((buildFrame (List.replicate 126 'a'.toNat) [1, 2, 3, 4]).drop 4).take 6
      = [1, 2, 3, 4, 'a'.toNat ^^^ 1, 'a'.toNat ^^^ 2] ∧
    (buildFrame (List.replicate 125 'a'.toNat) [1, 2, 3, 4])[1]? = some 0xFD ∧
    0xFD &&& 0x80 = 0x80 := by
  decide

/-! ## The detector -/

/-- C4: with a plugin and a game wrapper present, `detectGameState` returns,
for all signal values, the state of the first-match ladder: the menu when not
in session, whatever the other signals; otherwise the replay when in a replay
segment, for every speed and server context; otherwise paused when there is a
server context and the speed compares equal to `0.0f`; otherwise in game. -/
theorem detectGameState_eq_ladder (s : Signals) :
    detectGameState s.host = some (detectLadder s) ∧
    (∀ (replay : Bool) (speed : Float32) (server : Bool),
      detectGameState (Signals.host ⟨false, replay, speed, server⟩) = some GameState.inMenu) ∧
    (∀ (speed : Float32) (server : Bool),
      detectGameState (Signals.host ⟨true, true, speed, server⟩) = some GameState.inReplay) ∧
    (∀ (speed : Float32),
      detectGameState (Signals.host ⟨true, false, speed, true⟩) =
        some (if speed.eqZero then GameState.gamePaused else GameState.inGame)) ∧
    (∀ (speed : Float32),
      detectGameState (Signals.host ⟨true, false, speed, false⟩) = some GameState.inGame) := by
  have key : ∀ t : Signals, detectGameState t.host = some (detectLadder t) := by
    intro t
    obtain ⟨a, b, sp, sv⟩ := t
    cases hz : sp.eqZero <;> cases a <;> cases b <;> cases sv <;>
      simp [detectGameState, isGamePaused, Signals.host, detectLadder, hz]
  refine ⟨key s, ?_, ?_, ?_, ?_⟩
  · intro replay speed server
    rw [key]; simp [detectLadder]
  · intro speed server
    rw [key]; simp [detectLadder]
  · intro speed
    rw [key]; simp [detectLadder]
  · intro speed
    rw [key]; simp [detectLadder]

/-- C5: `updateState` with the stored state leaves the detector and the
callback record as they are; with a different state it stores the new state
and, when a callback is registered, invokes it once, with the new state;
a second `updateState` with the same state changes nothing any more, so the
two calls together invoke the callback at most once. -/
theorem updateState_fires_iff_changed (d : GameStateDetector) (calls : List GameState)
    (c : GameState) :
    (c = d.currentState → updateState d calls c = (d, calls)) ∧
    (c ≠ d.currentState →
      updateState d calls c =
        ({ d with currentState := c }, if d.onStateChanged then calls ++ [c] else calls)) ∧
    (updateState (updateState d calls c).1 (updateState d calls c).2 c = updateState d calls c) ∧
    (∃ fired, (updateState (updateState d calls c).1 (updateState d calls c).2 c).2
        = calls ++ fired ∧ fired.length ≤ 1) := by
  refine ⟨?_, ?_, ?_, ?_⟩
  · intro h
    simp [updateState, h]
  · intro h
    cases hcb : d.onStateChanged <;> simp [updateState, h, hcb]
  · by_cases h : c = d.currentState
    · simp [updateState, h]
    · cases hcb : d.onStateChanged <;> simp [updateState, h, hcb]
  · by_cases h : c = d.currentState
    · exact ⟨[], by simp [updateState, h]⟩
    · cases hcb : d.onStateChanged
      · exact ⟨[], by simp [updateState, h, hcb]⟩
      · exact ⟨[c], by simp [updateState, h, hcb]⟩

/-- Witness for C5: a detector in state `unknown` with a callback registered,
updated with `inMenu`. -/
theorem updateState_fires_iff_changed_witness :
    GameState.inMenu ≠ ({ GameStateDetector.new with onStateChanged := true }).currentState ∧
    updateState { GameStateDetector.new with onStateChanged := true } [] GameState.inMenu =
      ({ GameStateDetector.new with onStateChanged := true, currentState := GameState.inMenu },
        [GameState.inMenu]) ∧
    (GameState.unknown = ({ GameStateDetector.new with onStateChanged := true }).currentState ∧
    updateState { GameStateDetector.new with onStateChanged := true } [] GameState.unknown =
      ({ GameStateDetector.new with onStateChanged := true }, [])) :=
  ⟨by decide,
    (updateState_fires_iff_changed { GameStateDetector.new with onStateChanged := true } []
      GameState.inMenu).2.1 (by decide),
    rfl,
    (updateState_fires_iff_changed { GameStateDetector.new with onStateChanged := true } []
      GameState.unknown).1 rfl⟩

/-! ## The URL parser -/

theorem find_lt (s : Str) (c p : Nat) (h : find s c = some p) : p < s.length := by
  induction s generalizing p with
  | nil => simp [find] at h
  | cons x xs ih =>
    unfold find at h
    split at h
    · simp at h; subst h; simp
    · cases hf : find xs c with
      | none => simp [hf] at h
      | some q =>
        simp [hf] at h
        subst h
        have := ih q hf
        simp
        omega

theorem find_eq_none (s : Str) (c : Nat) (h : c ∉ s) : find s c = none := by
  induction s with
  | nil => rfl
  | cons x xs ih =>
    simp at h
    have hx : ¬ x = c := fun e => h.1 e.symm
    simp [find, hx, ih h.2]

theorem find_append (a b : Str) (c : Nat) (h : c ∉ a) :
    find (a ++ c :: b) c = some a.length := by
  induction a with
  | nil => simp [find]
  | cons x xs ih =>
    simp at h
    have hx : ¬ x = c := fun e => h.1 e.symm
    simp [find, hx, ih h.2]

/-- What `parseWebSocketUrl` stores for the text `rest` after the scheme. -/
theorem parseWebSocketUrl_accepts (c : WebSocketClient) (rest : Str) :
    parseWebSocketUrl c (lit "ws://" ++ rest) =
      some (true,
        match find rest '/'.toNat with
        | some slashPos =>
          (match find (rest.take slashPos) ':'.toNat with
          | some colonPos =>
            { c with path := rest.drop slashPos, host := (rest.take slashPos).take colonPos,
                     port := (rest.take slashPos).drop (colonPos + 1) }
          | none => { c with path := rest.drop slashPos, host := rest.take slashPos,
                             port := lit "80" })
        | none =>
          (match find rest ':'.toNat with
          | some colonPos =>
            { c with path := lit "/", host := rest.take colonPos,
                     port := rest.drop (colonPos + 1) }
          | none => { c with path := lit "/", host := rest, port := lit "80" })) := by
  have h5 : (lit "ws://").length = 5 := by decide
  have hs : substr (lit "ws://" ++ rest) 0 5 = some (lit "ws://") := by
    simp [substr, List.take_append_of_le_length, h5]
  have hr : substrFrom (lit "ws://" ++ rest) 5 = some rest := by
    simp [substrFrom, h5, List.drop_append_of_le_length]
  unfold parseWebSocketUrl
  simp only [hs, hr, Option.bind_eq_bind, Option.some_bind, ne_eq, not_true_eq_false, if_false]
  have e1 : '/'.toNat = 47 := rfl
  have e2 : ':'.toNat = 58 := rfl
  simp only [e1, e2]
  cases hf : find rest 47 with
  | none =>
    cases hc : find rest 58 with
    | none => simp [hc]
    | some colonPos =>
      have hlt := find_lt rest _ colonPos hc
      have h1 : ¬ (rest.length < colonPos + 1) := by omega
      simp [substr, substrFrom, h1, hc]
  | some slashPos =>
    have hlt := find_lt rest _ slashPos hf
    have h1 : ¬ (rest.length < slashPos) := by omega
    cases hc : find (rest.take slashPos) 58 with
    | none => simp [substr, substrFrom, h1, hc]
    | some colonPos =>
      have hlt2 := find_lt (rest.take slashPos) _ colonPos hc
      have h2 : ¬ ((rest.take slashPos).length < colonPos + 1) := by omega
      simp only [List.length_take] at h2
      simp [substr, substrFrom, h1, h2, hc]

/-- C6: for a host without `/` and `:`, a port text without `/` and a path
that begins with `/`, parsing `ws://host:port/path` succeeds and stores
exactly that host, port and path; parsing `ws://host` succeeds and stores the
host, the port `80` and the path `/`. -/
theorem parseWebSocketUrl_recovers (c : WebSocketClient) (h p pp : Str)
    (hslash : '/'.toNat ∉ h) (hcolon : ':'.toNat ∉ h) (hp : '/'.toNat ∉ p)
    (hpp : pp.head? = some '/'.toNat) :
    parseWebSocketUrl c (lit "ws://" ++ h ++ lit ":" ++ p ++ pp) =
      some (true, { c with host := h, port := p, path := pp }) ∧
    parseWebSocketUrl c (lit "ws://" ++ h) =
      some (true, { c with host := h, port := lit "80", path := lit "/" }) := by
  have e1 : '/'.toNat = 47 := rfl
  have e2 : ':'.toNat = 58 := rfl
  have e3 : lit ":" = [58] := rfl
  rw [e1] at hslash hp hpp
  rw [e2] at hcolon
  constructor
  · obtain ⟨tl, rfl⟩ : ∃ tl, pp = 47 :: tl := by
      cases pp with
      | nil => simp at hpp
      | cons x tl => simp at hpp; exact ⟨tl, by rw [hpp]⟩
    have hrest : lit "ws://" ++ h ++ lit ":" ++ p ++ 47 :: tl
        = lit "ws://" ++ ((h ++ 58 :: p) ++ 47 :: tl) := by
      simp [e3]
    have hauth : (47 : Nat) ∉ h ++ 58 :: p := by
      simp [hslash, hp]
    have hf : find ((h ++ 58 :: p) ++ 47 :: tl) 47 = some (h ++ 58 :: p).length :=
      find_append _ _ _ hauth
    have hc : find (h ++ 58 :: p) 58 = some h.length := find_append _ _ _ hcolon
    rw [hrest, parseWebSocketUrl_accepts]
    simp only [e1, e2, hf, List.take_left, List.drop_left, hc]
    have hd : List.drop (h.length + 1) (h ++ 58 :: p) = p := by
      rw [← List.drop_drop, List.drop_left]
      rfl
    rw [hd]
  · rw [parseWebSocketUrl_accepts]
    simp only [e1, e2, find_eq_none h 47 hslash, find_eq_none h 58 hcolon]

/-- Witness for C6: the endpoint `ws://localhost:8080/state`. -/
theorem parseWebSocketUrl_recovers_witness :
    parseWebSocketUrl (WebSocketClient.init []) (lit "ws://" ++ lit "localhost" ++ lit ":" ++
        lit "8080" ++ lit "/state") =
      some (true, { WebSocketClient.init [] with
        host := lit "localhost", port := lit "8080", path := lit "/state" }) ∧
    parseWebSocketUrl (WebSocketClient.init []) (lit "ws://" ++ lit "localhost") =
      some (true, { WebSocketClient.init [] with
        host := lit "localhost", port := lit "80", path := lit "/" }) :=
  parseWebSocketUrl_recovers (WebSocketClient.init []) (lit "localhost") (lit "8080")
    (lit "/state") (by decide) (by decide) (by decide) (by decide)

/-- C7: `parseWebSocketUrl` always returns; it returns `false` exactly when
the text does not begin with `ws://`, and then the stored host, port and path
(the whole object) are as before; every text that begins with `ws://` is
accepted. -/
theorem parseWebSocketUrl_fails_iff (c : WebSocketClient) (url : Str) :
    ∃ ok c', parseWebSocketUrl c url = some (ok, c') ∧
      (ok = false ↔ ¬ ∃ rest, url = lit "ws://" ++ rest) ∧
      (ok = false → c' = c) := by
  by_cases hpre : ∃ rest, url = lit "ws://" ++ rest
  · obtain ⟨rest, rfl⟩ := hpre
    refine ⟨true, _, parseWebSocketUrl_accepts c rest, ?_, ?_⟩
    · simp
    · simp
  · refine ⟨false, c, ?_, ?_, ?_⟩
    · have hne : ¬ (url.take 5 = lit "ws://") := by
        intro h
        apply hpre
        exact ⟨url.drop 5, by rw [← h, List.take_append_drop]⟩
      simp [parseWebSocketUrl, substr, hne]
    · simp [hpre]
    · simp

/-- Witness for C7: the text `ws:/`, shorter than the scheme, is refused and
the object is left as it was. -/
theorem parseWebSocketUrl_fails_iff_witness :
    parseWebSocketUrl (WebSocketClient.init []) (lit "ws:/")
      = some (false, WebSocketClient.init []) ∧
    ∃ ok c', parseWebSocketUrl (WebSocketClient.init []) (lit "ws:/") = some (ok, c') ∧
      (ok = false ↔ ¬ ∃ rest, lit "ws:/" = lit "ws://" ++ rest) ∧
      (ok = false → c' = WebSocketClient.init []) :=
  ⟨by decide,
    parseWebSocketUrl_fails_iff (WebSocketClient.init []) (lit "ws:/")⟩

/-! ## Sending -/

/-- C8: on a client that is not connected, `sendJsonMessage` returns with the
client and the record of effects as they were: no `send` call is added, and
the connected flag, the running flag and the socket handle are unchanged. -/
theorem sendJsonMessage_not_connected (c : WebSocketClient) (w : World) (env : SendEnv)
    (state : Str) (timestamp : Int) (h : c.connected = false) :
    sendJsonMessage c w env state timestamp = (c, w) ∧
    (sendJsonMessage c w env state timestamp).2.sends = w.sends ∧
    (sendJsonMessage c w env state timestamp).1.connected = c.connected ∧
    (sendJsonMessage c w env state timestamp).1.running = c.running ∧
    (sendJsonMessage c w env state timestamp).1.sock = c.sock := by
  have e : sendJsonMessage c w env state timestamp = (c, w) := by
    simp [sendJsonMessage, sendMessage, h]
  simp [e]

/-- Witness for C8: `sendJsonMessage("InMenu", 1000)` on a fresh client. -/
theorem sendJsonMessage_not_connected_witness :
    (WebSocketClient.init (lit "ws://localhost")).connected = false ∧
    (sendJsonMessage (WebSocketClient.init (lit "ws://localhost")) World.empty
      ⟨fun _ => 0, false⟩ (lit "InMenu") 1000).2.sends = [] :=
  ⟨rfl, (sendJsonMessage_not_connected (WebSocketClient.init (lit "ws://localhost"))
    World.empty ⟨fun _ => 0, false⟩ (lit "InMenu") 1000 rfl).2.1⟩

theorem decimalValue_append (xs : Str) (d : Nat) :
    decimalValue (xs ++ [d]) = decimalValue xs * 10 + (d - 48) := by
  simp [decimalValue, List.foldl_append]

theorem decimalDigits_spec (fuel n : Nat) (h : n < fuel) :
    decimalDigits fuel n ≠ [] ∧ (∀ b ∈ decimalDigits fuel n, 48 ≤ b ∧ b ≤ 57) ∧
      decimalValue (decimalDigits fuel n) = n ∧
      ((decimalDigits fuel n).head? = some 48 → n = 0) := by
  induction fuel generalizing n with
  | zero => omega
  | succ fuel ih =>
    unfold decimalDigits
    by_cases h10 : n < 10
    · simp only [h10, if_true]
      refine ⟨by simp, ?_, ?_, ?_⟩
      · intro b hb
        simp at hb
        omega
      · simp [decimalValue]
      · intro hz
        simp at hz
        exact hz
    · simp only [h10, if_false]
      have hlt : n / 10 < fuel := by omega
      obtain ⟨h1, h2, h3, h4⟩ := ih (n / 10) hlt
      refine ⟨by simp, ?_, ?_, ?_⟩
      · intro b hb
        rw [List.mem_append] at hb
        rcases hb with hb | hb
        · exact h2 b hb
        · simp at hb
          omega
      · rw [decimalValue_append, h3]
        omega
      · intro hz
        rw [List.head?_append_of_ne_nil _ h1] at hz
        have := h4 hz
        omega

/-! ## The message text as a JSON object -/

theorem jsonReadChars_plain (s rest : Str) (h : ∀ b ∈ s, b ≠ 34 ∧ b ≠ 92 ∧ 32 ≤ b) :
    jsonReadChars (s ++ 34 :: rest) = some (s, rest) := by
  induction s with
  | nil => simp [jsonReadChars]
  | cons x xs ih =>
    obtain ⟨h1, h2, h3⟩ := h x (by simp)
    have hxs : ∀ b ∈ xs, b ≠ 34 ∧ b ≠ 92 ∧ 32 ≤ b := fun b hb => h b (by simp [hb])
    have h4 : ¬ (x = 92 ∨ x < 32) := by omega
    simp [jsonReadChars, h1, h4, ih hxs]

theorem jsonReadString_plain (s rest : Str) (h : ∀ b ∈ s, b ≠ 34 ∧ b ≠ 92 ∧ 32 ≤ b) :
    jsonReadString (34 :: (s ++ 34 :: rest)) = some (s, rest) := by
  simp [jsonReadString, jsonReadChars_plain s rest h]

theorem showLongLong_digits (t : Int) :
    ∃ digits, showLongLong t = (if t < 0 then [45] else []) ++ digits ∧ digits ≠ [] ∧
      (∀ b ∈ digits, jsonIsDigit b = true) ∧ decimalValue digits = t.natAbs ∧
      ¬ (digits.head? = some 48 ∧ 1 < digits.length) := by
  obtain ⟨h1, h2, h3, h4⟩ :=
    decimalDigits_spec (t.natAbs + 1) t.natAbs (Nat.lt_succ_self _)
  refine ⟨decimalDigits (t.natAbs + 1) t.natAbs, ?_, h1, ?_, h3, ?_⟩
  · unfold showLongLong
    by_cases hneg : t < 0 <;> simp [hneg]
  · intro b hb
    have := h2 b hb
    simp [jsonIsDigit, this.1, this.2]
  · rintro ⟨hz, hl⟩
    have h0 := h4 hz
    rw [h0] at hl
    simp [decimalDigits] at hl

theorem jsonReadInt_showLongLong (t : Int) (rest : Str) :
    jsonReadInt (showLongLong t ++ 125 :: rest) = some (t, 125 :: rest) := by
  obtain ⟨digits, hs, hne, hd, hv, hz⟩ := showLongLong_digits t
  have htake : (digits ++ 125 :: rest).takeWhile jsonIsDigit = digits := by
    rw [List.takeWhile_append_of_pos hd]
    simp [List.takeWhile, jsonIsDigit]
  have hdrop : (digits ++ 125 :: rest).dropWhile jsonIsDigit = 125 :: rest := by
    rw [List.dropWhile_append_of_pos hd]
    simp [List.dropWhile, jsonIsDigit]
  have hh : ((digits ++ 125 :: rest).head? == some 45) = false := by
    cases digits with
    | nil => exact absurd rfl hne
    | cons d ds =>
      have := hd d (by simp)
      simp only [jsonIsDigit, Bool.and_eq_true, decide_eq_true_eq] at this
      have hd45 : d ≠ 45 := by omega
      simp [hd45]
  rw [hs]
  unfold jsonReadInt
  by_cases hneg : t < 0
  · have hval : -((decimalValue digits : Nat) : Int) = t := by rw [hv]; omega
    have e : (if t < 0 then [45] else []) ++ digits ++ 125 :: rest
        = 45 :: (digits ++ 125 :: rest) := by simp [hneg]
    rw [e]
    simp only [List.head?_cons, beq_self_eq_true, if_true, List.drop_succ_cons, List.drop_zero,
      htake, hdrop, hne, hz, if_false, hval]
    simp
  · have hval : ((decimalValue digits : Nat) : Int) = t := by rw [hv]; omega
    have e : (if t < 0 then [45] else []) ++ digits ++ 125 :: rest
        = digits ++ 125 :: rest := by simp [hneg]
    rw [e]
    simp only [hh, Bool.false_eq_true, if_false, htake, hdrop, hne, hz, hval]
    simp

theorem jsonSkip_cons (b : Nat) (rest : Str) (h : jsonIsWs b = false) :
    jsonSkip (b :: rest) = b :: rest := by
  simp [jsonSkip, List.dropWhile, h]

theorem showLongLong_head (t : Int) (rest : Str) :
    ∃ b tl, showLongLong t ++ rest = b :: tl ∧ jsonIsWs b = false ∧ b ≠ 34 := by
  obtain ⟨digits, hs, hne, hd, -, -⟩ := showLongLong_digits t
  by_cases hneg : t < 0
  · exact ⟨45, digits ++ rest, by simp [hs, hneg], by decide, by decide⟩
  · cases digits with
    | nil => exact absurd rfl hne
    | cons d ds =>
      have h1 := hd d (by simp)
      simp only [jsonIsDigit, Bool.and_eq_true, decide_eq_true_eq] at h1
      refine ⟨d, ds ++ rest, by simp [hs, hneg], ?_, by omega⟩
      have e1 : (d == 32) = false := by simp; omega
      have e2 : (d == 9) = false := by simp; omega
      have e3 : (d == 10) = false := by simp; omega
      have e4 : (d == 13) = false := by simp; omega
      simp [jsonIsWs, e1, e2, e3, e4]

theorem jsonSkip_showLongLong (t : Int) (rest : Str) :
    jsonSkip (showLongLong t ++ rest) = showLongLong t ++ rest := by
  obtain ⟨b, tl, e, hw, -⟩ := showLongLong_head t rest
  rw [e, jsonSkip_cons b tl hw]

theorem jsonReadValue_int (t : Int) (rest : Str) :
    jsonReadValue (showLongLong t ++ 125 :: rest) = some (JsonValue.num t, 125 :: rest) := by
  obtain ⟨b, tl, e, -, hq⟩ := showLongLong_head t (125 :: rest)
  have hh : ¬ ((showLongLong t ++ 125 :: rest).head? = some 34) := by
    rw [e]
    simp [hq]
  unfold jsonReadValue
  rw [if_neg hh, jsonReadInt_showLongLong]
  rfl

theorem jsonReadValue_string (s rest : Str) (h : ∀ b ∈ s, b ≠ 34 ∧ b ≠ 92 ∧ 32 ≤ b) :
    jsonReadValue (34 :: (s ++ 34 :: rest)) = some (JsonValue.str s, rest) := by
  unfold jsonReadValue
  rw [if_pos (by simp), jsonReadString_plain s rest h]
  rfl

theorem jsonSkip_append (sp : Str) (b : Nat) (rest : Str)
    (hsp : ∀ x ∈ sp, jsonIsWs x = true) (h : jsonIsWs b = false) :
    jsonSkip (sp ++ b :: rest) = b :: rest := by
  unfold jsonSkip
  rw [List.dropWhile_append_of_pos hsp]
  simp [List.dropWhile, h]

theorem jsonSkip_append_showLongLong (sp : Str) (t : Int) (rest : Str)
    (hsp : ∀ x ∈ sp, jsonIsWs x = true) :
    jsonSkip (sp ++ (showLongLong t ++ rest)) = showLongLong t ++ rest := by
  obtain ⟨b, tl, e, hw, -⟩ := showLongLong_head t rest
  rw [e, jsonSkip_append sp b tl hsp hw]

theorem jsonReadMembers_two (fuel : Nat) (sp k1 k2 s rest : Str) (t : Int)
    (hsp : ∀ x ∈ sp, jsonIsWs x = true)
    (h1 : ∀ b ∈ k1, b ≠ 34 ∧ b ≠ 92 ∧ 32 ≤ b) (h2 : ∀ b ∈ k2, b ≠ 34 ∧ b ≠ 92 ∧ 32 ≤ b)
    (hs : ∀ b ∈ s, b ≠ 34 ∧ b ≠ 92 ∧ 32 ≤ b) :
    jsonReadMembers (fuel + 2)
      (34 :: (k1 ++ 34 :: 58 :: (sp ++ 34 :: (s ++ 34 :: 44 :: (sp ++ 34 ::
        (k2 ++ 34 :: 58 :: (sp ++ (showLongLong t ++ 125 :: rest)))))))) =
      some ([(k1, JsonValue.str s), (k2, JsonValue.num t)], rest) := by
  have w34 : jsonIsWs 34 = false := by decide
  have w58 : jsonIsWs 58 = false := by decide
  have w44 : jsonIsWs 44 = false := by decide
  have w125 : jsonIsWs 125 = false := by decide
  have inner : jsonReadMembers (fuel + 1)
      (sp ++ 34 :: (k2 ++ 34 :: 58 :: (sp ++ (showLongLong t ++ 125 :: rest)))) =
      some ([(k2, JsonValue.num t)], rest) := by
    unfold jsonReadMembers
    rw [jsonSkip_append sp 34 _ hsp w34, jsonReadString_plain k2 _ h2]
    simp only [jsonSkip_cons 58 _ w58, ne_eq, not_true_eq_false, if_false]
    rw [jsonSkip_append_showLongLong sp t _ hsp, jsonReadValue_int]
    simp only [jsonSkip_cons 125 _ w125, if_true]
  unfold jsonReadMembers
  rw [jsonSkip_cons 34 _ w34, jsonReadString_plain k1 _ h1]
  simp only [jsonSkip_cons 58 _ w58, ne_eq, not_true_eq_false, if_false]
  rw [jsonSkip_append sp 34 _ hsp w34, jsonReadValue_string s _ hs]
  simp only [jsonSkip_cons 44 _ w44]
  rw [inner]
  simp

theorem jsonReadObject_stateObject (sp state : Str) (t : Int)
    (hsp : ∀ x ∈ sp, jsonIsWs x = true) (hs : ∀ b ∈ state, b ≠ 34 ∧ b ≠ 92 ∧ 32 ≤ b) :
    jsonReadObject (stateObject sp state (showLongLong t)) =
      some [(lit "state", JsonValue.str state), (lit "timestamp", JsonValue.num t)] := by
  have e : stateObject sp state (showLongLong t) =
      123 :: 34 :: (lit "state" ++ 34 :: 58 :: (sp ++ 34 :: (state ++ 34 :: 44 :: (sp ++ 34 ::
        (lit "timestamp" ++ 34 :: 58 :: (sp ++ (showLongLong t ++ 125 :: []))))))) := by
    have q1 : lit "\x7b" = [123] := rfl
    have q2 : lit "\"" = [34] := rfl
    have q3 : lit ":" = [58] := rfl
    have q4 : lit "," = [44] := rfl
    have q5 : lit "\x7d" = [125] := rfl
    simp [stateObject, quoted, q1, q2, q3, q4, q5]
  have w123 : jsonIsWs 123 = false := by decide
  rw [e]
  unfold jsonReadObject
  rw [jsonSkip_cons 123 _ w123]
  simp only [ne_eq, not_true_eq_false, if_false, List.length_cons]
  rw [jsonReadMembers_two _ sp (lit "state") (lit "timestamp") state [] t hsp (by decide)
    (by decide) hs]
  simp [jsonSkip]

theorem jsonText_eq_stateObject (state : Str) (t : Int) :
    jsonText state t = stateObject [] state (showLongLong t) := by
  have q1 : lit "\x7b\"state\":\"" =
      lit "\x7b" ++ quoted (lit "state") ++ lit ":" ++ lit "\"" := by
    decide
  have q2 : lit "\",\"timestamp\":" =
      lit "\"" ++ lit "," ++ quoted (lit "timestamp") ++ lit ":" := by
    decide
  unfold jsonText stateObject
  rw [q1, q2]
  simp [quoted]

/-- C9, as amended: for a state name without a double quote (34), a
backslash (92) and a control character (a byte below 32), the text handed to
`sendMessage` is a JSON text of one object with exactly the members `state`
and `timestamp`, in that order, the state as a string and the timestamp as an
integer; it is the text of the specification written without white space,
with the state between the quotes as it is and the timestamp in decimal
digits, after a minus sign when negative; the spaced text of the
specification reads as the same object. -/
theorem sendJsonMessage_object (c : WebSocketClient) (w : World) (env : SendEnv)
    (state : Str) (timestamp : Int) (hplain : ∀ b ∈ state, b ≠ 34 ∧ b ≠ 92 ∧ 32 ≤ b) :
    sendJsonMessage c w env state timestamp =
      sendMessage c w env (jsonText state timestamp) ∧
    jsonReadObject (jsonText state timestamp) =
      some [(lit "state", JsonValue.str state), (lit "timestamp", JsonValue.num timestamp)] ∧
    jsonText state timestamp = stateObject [] state (showLongLong timestamp) ∧
    jsonReadObject (stateObject (lit " ") state (showLongLong timestamp)) =
      jsonReadObject (jsonText state timestamp) ∧
    (∃ digits, showLongLong timestamp = (if timestamp < 0 then lit "-" else []) ++ digits ∧
      digits ≠ [] ∧ (∀ b ∈ digits, '0'.toNat ≤ b ∧ b ≤ '9'.toNat) ∧
      decimalValue digits = timestamp.natAbs ∧
      (digits.head? = some '0'.toNat → timestamp = 0)) := by
  have e := jsonText_eq_stateObject state timestamp
  have r0 := jsonReadObject_stateObject [] state timestamp (by simp) hplain
  have r1 := jsonReadObject_stateObject (lit " ") state timestamp (by decide) hplain
  refine ⟨rfl, by rw [e, r0], e, by rw [e, r0, r1], ?_⟩
  obtain ⟨h1, h2, h3, h4⟩ :=
    decimalDigits_spec (timestamp.natAbs + 1) timestamp.natAbs (Nat.lt_succ_self _)
  refine ⟨decimalDigits (timestamp.natAbs + 1) timestamp.natAbs, ?_, h1, h2, h3,
    fun hz => Int.natAbs_eq_zero.mp (h4 hz)⟩
  unfold showLongLong
  by_cases hneg : timestamp < 0
  · simp [hneg]
    rfl
  · simp [hneg]

/-- Witness for C9: the state `InMenu` and the timestamp 1000. -/
theorem sendJsonMessage_object_witness :
    (∀ b ∈ lit "InMenu", b ≠ 34 ∧ b ≠ 92 ∧ 32 ≤ b) ∧
    jsonReadObject (jsonText (lit "InMenu") 1000) =
      some [(lit "state", JsonValue.str (lit "InMenu")), (lit "timestamp", JsonValue.num 1000)] ∧
    jsonText (lit "InMenu") 1000 = lit "\x7b\"state\":\"InMenu\",\"timestamp\":1000\x7d" :=
  ⟨by decide,
    (sendJsonMessage_object (WebSocketClient.init []) World.empty failingSend (lit "InMenu") 1000
      (by decide)).2.1,
    by decide⟩

set_option maxRecDepth 100000 in
/-- C9, the claim as written fails: for a state name that holds double
quotes (`x`, quote, comma, quote, `extra`, quote, colon, quote, `y`) the text
reads as an object with the three members `state`, `extra` and `timestamp`,
whose `state` is `x`; for a state name with a backslash or with a line feed
the text is no JSON object. -/
theorem sendJsonMessage_state_not_escaped :
    jsonText (lit "x\",\"extra\":\"y") 7 =
      lit "\x7b\"state\":\"x\",\"extra\":\"y\",\"timestamp\":7\x7d" ∧
    jsonReadObject (jsonText (lit "x\",\"extra\":\"y") 7) =
      some [(lit "state", JsonValue.str (lit "x")), (lit "extra", JsonValue.str (lit "y")),
        (lit "timestamp", JsonValue.num 7)] ∧
    jsonReadObject (jsonText (lit "x\",\"extra\":\"y") 7) ≠
      some [(lit "state", JsonValue.str (lit "x\",\"extra\":\"y")),
        (lit "timestamp", JsonValue.num 7)] ∧
    jsonReadObject (jsonText (lit "a\x5c") 7) = none ∧
    jsonReadObject (jsonText (lit "a\nb") 7) = none := by
  decide

/-! ## Connecting and disconnecting -/

theorem parseWebSocketUrl_frame (c : WebSocketClient) (url : Str) :
    ∃ ok c', parseWebSocketUrl c url = some (ok, c') ∧ c'.running = c.running ∧
      c'.threadJoinable = c.threadJoinable ∧ c'.onDisconnected = c.onDisconnected := by
  by_cases hpre : url.take 5 = lit "ws://"
  · have hu : url = lit "ws://" ++ url.drop 5 := by rw [← hpre, List.take_append_drop]
    rw [hu, parseWebSocketUrl_accepts]
    refine ⟨true, _, rfl, ?_⟩
    split <;> split <;> simp
  · exact ⟨false, c, by simp [parseWebSocketUrl, substr, hpre], rfl, rfl, rfl⟩

theorem connectToServer_frame (c : WebSocketClient) (w : World) (env : ConnectEnv) :
    (connectToServer c w env).2.1.running = c.running ∧
    (connectToServer c w env).2.1.threadJoinable = c.threadJoinable ∧
    (connectToServer c w env).2.1.onDisconnected = c.onDisconnected ∧
    (connectToServer c w env).2.2.disconnectedCalls = w.disconnectedCalls := by
  unfold connectToServer
  cases env.socketResult <;> cases env.getaddrinfoFails <;> cases env.connectFails <;> simp

theorem performWebSocketHandshake_frame (c : WebSocketClient) (w : World) (env : ConnectEnv) :
    (performWebSocketHandshake c w env).2.disconnectedCalls = w.disconnectedCalls := by
  unfold performWebSocketHandshake
  cases env.sendFails <;> cases env.recvResult <;> simp
  split <;> simp

theorem cleanup_frame (c : WebSocketClient) (w : World) :
    (cleanup c w).1.running = c.running ∧
    (cleanup c w).1.connected = c.connected ∧
    (cleanup c w).1.threadJoinable = c.threadJoinable ∧
    (cleanup c w).1.onDisconnected = c.onDisconnected ∧
    (cleanup c w).1.sock = none ∧
    (cleanup c w).2.closes = w.closes ++ c.sock.toList ∧
    (cleanup c w).2.disconnectedCalls = w.disconnectedCalls := by
  unfold cleanup
  cases h : c.sock <;> simp [h]
theorem connect_balanced (d0 : Nat) (r : ClientRun) (env : ConnectEnv) (hb : r.Balanced d0) :
    ∃ r1, r.step (ClientOp.connect env) = some r1 ∧ r1.Balanced d0 := by
  obtain ⟨c, w, n⟩ := r
  obtain ⟨hj, hd, hn⟩ := hb
  simp only at hj hd hn
  cases hrun : c.running
  · obtain ⟨ok, c1, hp, p1, p2, p3⟩ := parseWebSocketUrl_frame c c.websocketUrl
    obtain ⟨s1, s2, s3, s4⟩ := connectToServer_frame c1 w env
    have s5 := performWebSocketHandshake_frame (connectToServer c1 w env).2.1
      (connectToServer c1 w env).2.2 env
    obtain ⟨k1, -, k3, k4, -, -, k7⟩ := cleanup_frame (connectToServer c1 w env).2.1
      (performWebSocketHandshake (connectToServer c1 w env).2.1
        (connectToServer c1 w env).2.2 env).2
    simp only [ClientRun.step, connect, hrun, hp, Option.bind_eq_bind, Option.some_bind]
    generalize connectToServer c1 w env = cs at *
    obtain ⟨ok2, c2, w2⟩ := cs
    generalize performWebSocketHandshake c2 w2 env = hs at *
    obtain ⟨ok3, w3⟩ := hs
    generalize cleanup c2 w3 = cl at *
    obtain ⟨c4, w4⟩ := cl
    simp only at s1 s2 s3 s4 s5 k1 k3 k4 k7
    have j2 : c2.threadJoinable = false := by rw [s2, p2, hj, hrun]
    rw [hrun] at hn
    cases ok <;> cases ok2 <;> cases ok3 <;> cases hoc : c2.onConnected <;>
      simp [ClientRun.Balanced, pure, j2, hoc] <;> simp_all <;> omega
  · refine ⟨⟨c, w, n⟩, ?_, hj, hd, hn⟩
    simp [ClientRun.step, connect, hrun]

theorem disconnect_running (c : WebSocketClient) (w : World) (h : c.running = true) :
    (disconnect c w).1.running = false ∧ (disconnect c w).1.connected = false ∧
    (disconnect c w).1.threadJoinable = false ∧
    (disconnect c w).1.onDisconnected = c.onDisconnected ∧
    (disconnect c w).1.sock = none ∧
    (disconnect c w).2.closes = w.closes ++ c.sock.toList ∧
    (disconnect c w).2.disconnectedCalls =
      w.disconnectedCalls + (if c.onDisconnected then 1 else 0) := by
  unfold disconnect cleanup
  cases hj : c.threadJoinable <;> cases hs : c.sock <;> cases hd : c.onDisconnected <;>
    simp [h, hj, hs, hd]

theorem disconnect_not_running (c : WebSocketClient) (w : World) (h : c.running = false) :
    disconnect c w = (c, w) := by
  simp [disconnect, h]

theorem sendMessage_frame (c : WebSocketClient) (w : World) (env : SendEnv) (message : Str) :
    (sendMessage c w env message).1.running = c.running ∧
    (sendMessage c w env message).1.threadJoinable = c.threadJoinable ∧
    (sendMessage c w env message).1.onDisconnected = c.onDisconnected ∧
    (sendMessage c w env message).2.disconnectedCalls = w.disconnectedCalls := by
  unfold sendMessage
  cases c.connected <;> cases env.sendFails <;> simp

theorem networkLoopRound_frame (c : WebSocketClient) (recvResult : Option Str)
    (wouldBlock : Bool) :
    (networkLoopRound c recvResult wouldBlock).running = c.running ∧
    (networkLoopRound c recvResult wouldBlock).threadJoinable = c.threadJoinable ∧
    (networkLoopRound c recvResult wouldBlock).onDisconnected = c.onDisconnected := by
  unfold networkLoopRound
  split
  · split
    · split <;> simp
    · split <;> simp
  · simp

theorem step_balanced (d0 : Nat) (r : ClientRun) (op : ClientOp) (hb : r.Balanced d0) :
    ∃ r1, r.step op = some r1 ∧ r1.Balanced d0 := by
  cases op with
  | connect env => exact connect_balanced d0 r env hb
  | disconnect =>
    refine ⟨_, rfl, ?_⟩
    obtain ⟨hj, hd, hn⟩ := hb
    cases hrun : r.client.running
    · rw [hrun] at hj hn
      simp only [disconnect_not_running _ r.world hrun]
      exact ⟨by rw [hj, hrun], hd, by rw [hrun]; exact hn⟩
    · obtain ⟨d1, -, d3, d4, -, -, d7⟩ := disconnect_running r.client r.world hrun
      rw [hrun] at hn
      refine ⟨by rw [d3, d1], by rw [d4, hd], ?_⟩
      simp only [d7, d1, hd, if_true] at hn ⊢
      simpa using hn
  | sendMessage env message =>
    refine ⟨_, rfl, ?_⟩
    obtain ⟨hj, hd, hn⟩ := hb
    obtain ⟨f1, f2, f3, f4⟩ := sendMessage_frame r.client r.world env message
    exact ⟨by rw [f2, f1, hj], by rw [f3, hd], by simp only [f4, f1]; exact hn⟩
  | sendJsonMessage env state timestamp =>
    refine ⟨_, rfl, ?_⟩
    obtain ⟨hj, hd, hn⟩ := hb
    obtain ⟨f1, f2, f3, f4⟩ :=
      sendMessage_frame r.client r.world env (jsonText state timestamp)
    exact ⟨by simp only [sendJsonMessage]; rw [f2, f1, hj],
      by simp only [sendJsonMessage]; rw [f3, hd],
      by simp only [sendJsonMessage, f4, f1]; exact hn⟩
  | networkLoopRound recvResult wouldBlock =>
    refine ⟨_, rfl, ?_⟩
    obtain ⟨hj, hd, hn⟩ := hb
    obtain ⟨f1, f2, f3⟩ := networkLoopRound_frame r.client recvResult wouldBlock
    exact ⟨by rw [f2, f1, hj], by rw [f3, hd], by simp only [f1]; exact hn⟩

theorem steps_balanced (d0 : Nat) (ops : List ClientOp) (r : ClientRun) (hb : r.Balanced d0) :
    ∃ r1, r.steps ops = some r1 ∧ r1.Balanced d0 := by
  induction ops generalizing r with
  | nil => exact ⟨r, rfl, hb⟩
  | cons op ops ih =>
    obtain ⟨r1, h1, hb1⟩ := step_balanced d0 r op hb
    obtain ⟨r2, h2, hb2⟩ := ih r1 hb1
    exact ⟨r2, by simp [ClientRun.steps, h1, h2], hb2⟩

/-- C10: `disconnect` on a running client clears `running` and `connected`,
closes and forgets the socket, and invokes the disconnected callback once
(when one is registered); on a client that is not running it changes nothing
and invokes nothing; hence a second `disconnect` changes nothing. In every
run of operations from a client that is not running and has a disconnected
callback, every operation returns, and the callback has been invoked once for
every `connect` that established a connection, the one still running apart,
which the next `disconnect` accounts for. -/
theorem disconnect_idempotent (c : WebSocketClient) (w : World) :
    (c.running = true →
      (disconnect c w).1.running = false ∧ (disconnect c w).1.connected = false ∧
      (disconnect c w).1.sock = none ∧
      (disconnect c w).2.closes = w.closes ++ c.sock.toList ∧
      (disconnect c w).2.disconnectedCalls =
        w.disconnectedCalls + (if c.onDisconnected then 1 else 0)) ∧
    (c.running = false → disconnect c w = (c, w)) ∧
    disconnect (disconnect c w).1 (disconnect c w).2 = disconnect c w ∧
    (c.running = false → c.threadJoinable = false → c.onDisconnected = true →
      ∀ ops : List ClientOp, ∃ r, ClientRun.steps ⟨c, w, 0⟩ ops = some r ∧
        r.world.disconnectedCalls + (if r.client.running then 1 else 0) =
          w.disconnectedCalls + r.connects ∧
        (disconnect r.client r.world).2.disconnectedCalls =
          w.disconnectedCalls + r.connects) := by
  refine ⟨?_, disconnect_not_running c w, ?_, ?_⟩
  · intro h
    obtain ⟨d1, d2, -, -, d5, d6, d7⟩ := disconnect_running c w h
    exact ⟨d1, d2, d5, d6, d7⟩
  · cases h : c.running
    · simp [disconnect_not_running c w h]
    · exact disconnect_not_running _ _ (disconnect_running c w h).1
  · intro hrun hj hd ops
    have hb : ClientRun.Balanced w.disconnectedCalls ⟨c, w, 0⟩ :=
      ⟨by simp [hj, hrun], hd, by simp [hrun]⟩
    obtain ⟨r, hr, hj1, hd1, hn1⟩ := steps_balanced w.disconnectedCalls ops _ hb
    refine ⟨r, hr, hn1, ?_⟩
    cases h : r.client.running
    · rw [disconnect_not_running _ _ h]
      simpa [h] using hn1
    · rw [(disconnect_running _ r.world h).2.2.2.2.2.2, hd1]
      simpa [h] using hn1

/-- Witness for C10: a running client with the socket 7 and a disconnected
callback; a fresh client; and the run connect, disconnect, disconnect of a
fresh client with a callback against a server that answers `101`. -/
theorem disconnect_idempotent_witness :
    ({ WebSocketClient.init [] with
        running := true, connected := true, threadJoinable := true, sock := some 7,
        onDisconnected := true } : WebSocketClient).running = true ∧
    ((disconnect { WebSocketClient.init [] with
        running := true, connected := true, threadJoinable := true, sock := some 7,
        onDisconnected := true } World.empty).1.running = false ∧
      (disconnect { WebSocketClient.init [] with
        running := true, connected := true, threadJoinable := true, sock := some 7,
        onDisconnected := true } World.empty).1.connected = false ∧
      (disconnect { WebSocketClient.init [] with
        running := true, connected := true, threadJoinable := true, sock := some 7,
        onDisconnected := true } World.empty).1.sock = none ∧
      (disconnect { WebSocketClient.init [] with
        running := true, connected := true, threadJoinable := true, sock := some 7,
        onDisconnected := true } World.empty).2.closes = [] ++ (some 7).toList ∧
      (disconnect { WebSocketClient.init [] with
        running := true, connected := true, threadJoinable := true, sock := some 7,
        onDisconnected := true } World.empty).2.disconnectedCalls = 0 + 1) ∧
    disconnect (WebSocketClient.init []) World.empty = (WebSocketClient.init [], World.empty) ∧
    (∃ r, ClientRun.steps
        ⟨{ WebSocketClient.init (lit "ws://localhost:8080") with onDisconnected := true },
          World.empty, 0⟩
        [ClientOp.connect ⟨some 7, false, false, fun _ => 0, false,
            some (lit "HTTP/1.1 101 Switching Protocols\r\n\r\n")⟩,
          ClientOp.disconnect, ClientOp.disconnect] = some r ∧
      r.world.disconnectedCalls + (if r.client.running then 1 else 0) = 0 + r.connects ∧
      (disconnect r.client r.world).2.disconnectedCalls = 0 + r.connects) ∧
    (ClientRun.steps
        ⟨{ WebSocketClient.init (lit "ws://localhost:8080") with onDisconnected := true },
          World.empty, 0⟩
        [ClientOp.connect ⟨some 7, false, false, fun _ => 0, false,
            some (lit "HTTP/1.1 101 Switching Protocols\r\n\r\n")⟩,
          ClientOp.disconnect, ClientOp.disconnect]).map
      (fun r => (r.client.running, r.world.disconnectedCalls, r.connects, r.world.closes)) =
      some (false, 1, 1, [7]) :=
  ⟨rfl,
    (disconnect_idempotent { WebSocketClient.init [] with
        running := true, connected := true, threadJoinable := true, sock := some 7,
        onDisconnected := true } World.empty).1 rfl,
    (disconnect_idempotent (WebSocketClient.init []) World.empty).2.1 rfl,
    (disconnect_idempotent
      { WebSocketClient.init (lit "ws://localhost:8080") with onDisconnected := true }
      World.empty).2.2.2 rfl rfl rfl _,
    by decide⟩


/-! ## Send failures and the error callback -/

theorem connect_errorCalls (c : WebSocketClient) (w : World) (env : ConnectEnv)
    (res : Bool × WebSocketClient × World) (h : connect c w env = some res) :
    res.2.2.errorCalls = w.errorCalls := by
  obtain ⟨ok, c1, hp, -, -, -⟩ := parseWebSocketUrl_frame c c.websocketUrl
  have s1 : (connectToServer c1 w env).2.2.errorCalls = w.errorCalls := by
    unfold connectToServer
    cases env.socketResult <;> cases env.getaddrinfoFails <;> cases env.connectFails <;> simp
  have s2 : ∀ (c2 : WebSocketClient) (w2 : World),
      (performWebSocketHandshake c2 w2 env).2.errorCalls = w2.errorCalls := by
    intro c2 w2
    unfold performWebSocketHandshake
    cases env.sendFails <;> cases env.recvResult <;> simp
    split <;> simp
  have s3 : ∀ (c2 : WebSocketClient) (w2 : World),
      (cleanup c2 w2).2.errorCalls = w2.errorCalls := by
    intro c2 w2
    unfold cleanup
    cases c2.sock <;> simp
  cases hrun : c.running
  · simp only [connect, hrun, hp, Option.bind_eq_bind, Option.some_bind] at h
    have s2' := s2 (connectToServer c1 w env).2.1 (connectToServer c1 w env).2.2
    have s3' := s3 (connectToServer c1 w env).2.1
      (performWebSocketHandshake (connectToServer c1 w env).2.1
        (connectToServer c1 w env).2.2 env).2
    generalize connectToServer c1 w env = cs at *
    obtain ⟨ok2, c2, w2⟩ := cs
    generalize performWebSocketHandshake c2 w2 env = hs at *
    obtain ⟨ok3, w3⟩ := hs
    generalize cleanup c2 w3 = cl at *
    obtain ⟨c4, w4⟩ := cl
    simp only at s1 s2' s3'
    cases ok <;> cases ok2 <;> cases ok3 <;> cases hj : c2.threadJoinable <;>
      cases hoc : c2.onConnected <;> simp [pure, hj, hoc] at h <;> subst h <;> simp_all
  · simp [connect, hrun] at h
    subst h
    rfl

theorem step_errorCalls (r r1 : ClientRun) (op : ClientOp) (h : r.step op = some r1) :
    r1.world.errorCalls = r.world.errorCalls := by
  cases op with
  | connect env =>
    cases hc : connect r.client r.world env with
    | none => simp [ClientRun.step, hc] at h
    | some res =>
      simp [ClientRun.step, hc] at h
      subst h
      exact connect_errorCalls _ _ _ _ hc
  | disconnect =>
    simp [ClientRun.step] at h
    subst h
    show (disconnect r.client r.world).2.errorCalls = r.world.errorCalls
    unfold disconnect cleanup
    cases r.client.running <;> cases r.client.threadJoinable <;> cases r.client.sock <;>
      cases r.client.onDisconnected <;> simp
  | sendMessage env message =>
    simp [ClientRun.step] at h
    subst h
    show (sendMessage r.client r.world env message).2.errorCalls = r.world.errorCalls
    unfold sendMessage
    cases r.client.connected <;> cases env.sendFails <;> simp
  | sendJsonMessage env state timestamp =>
    simp [ClientRun.step] at h
    subst h
    show (sendJsonMessage r.client r.world env state timestamp).2.errorCalls
      = r.world.errorCalls
    unfold sendJsonMessage sendMessage
    cases r.client.connected <;> cases env.sendFails <;> simp
  | networkLoopRound recvResult wouldBlock =>
    simp [ClientRun.step] at h
    subst h
    rfl

theorem steps_errorCalls (ops : List ClientOp) (r r1 : ClientRun) (h : r.steps ops = some r1) :
    r1.world.errorCalls = r.world.errorCalls := by
  induction ops generalizing r with
  | nil =>
    simp [ClientRun.steps] at h
    subst h
    rfl
  | cons op ops ih =>
    cases hs : r.step op with
    | none => simp [ClientRun.steps, hs] at h
    | some r2 =>
      simp [ClientRun.steps, hs] at h
      rw [ih r2 h, step_errorCalls r r2 op hs]

/-- What `sendMessage` does on a connected client whose socket write fails:
it makes the one `send` call with the frame, sets `connected` to false and
leaves everything else of the client as it was; the record of error-callback
invocations is unchanged, as it is over every run of client operations. -/
theorem sendMessage_send_failure (c : WebSocketClient) (w : World) (env : SendEnv)
    (message : Str) (hc : c.connected = true) (hf : env.sendFails = true) :
    (sendMessage c w env message).1 = { c with connected := false } ∧
    (sendMessage c w env message).2.sends =
      w.sends ++ [⟨c.sock, buildFrame message (genMaskKey env),
        toInt (toSizeT (buildFrame message (genMaskKey env)).length)⟩] ∧
    (sendMessage c w env message).2.errorCalls = w.errorCalls ∧
    (∀ (ops : List ClientOp) (r : ClientRun),
      ClientRun.steps ⟨c, w, 0⟩ ops = some r → r.world.errorCalls = w.errorCalls) := by
  refine ⟨?_, ?_, ?_, ?_⟩
  · simp [sendMessage, hc, hf]
  · simp [sendMessage, hc, hf]
  · simp [sendMessage, hc, hf]
  · intro ops r h
    exact steps_errorCalls ops _ r h

/-- C11, at a failing input: a connected client with an error callback
registered sends `hi` and the `send` fails; the one `send` call was made and
`connected` is false, but the record of error-callback invocations is still
empty: the failure is not reported through the callback. -/
theorem sendMessage_send_failure_no_error_callback :
    connectedClient.onError = true ∧
    (sendMessage connectedClient World.empty failingSend (lit "hi")).1.connected
      = false ∧
    (sendMessage connectedClient World.empty failingSend (lit "hi")).2.errorCalls
      = [] ∧
    (sendMessage connectedClient World.empty failingSend (lit "hi")).2.sends.length
      = 1 := by
  decide

/-! ## The handshake response -/

theorem findStr_isSome_iff (s needle : Str) :
    (findStr s needle).isSome = true ↔ needle <:+: s := by
  induction s with
  | nil =>
    cases needle with
    | nil => simp [findStr]
    | cons y ys => simp [findStr]
  | cons x t ih =>
    unfold findStr
    rw [List.infix_cons_iff]
    by_cases hp : needle.isPrefixOf (x :: t) = true
    · simp only [hp, if_true, Option.isSome_some, true_iff]
      exact Or.inl (List.isPrefixOf_iff_prefix.mp hp)
    · have hnp : ¬ needle <+: x :: t := fun h => hp (List.isPrefixOf_iff_prefix.mpr h)
      rw [if_neg hp, Option.isSome_map', ih]
      constructor
      · exact fun h => Or.inr h
      · rintro (h | h)
        · exact absurd h hnp
        · exact h

/-- C12, as amended: when the upgrade request was written, the handshake
succeeds exactly when the response text, which is the received bytes (at most
1023) up to the first zero byte, contains `HTTP/1.1 101`; for received bytes
without a zero byte that is when the received bytes contain it; a read error
and an empty read fail the handshake. -/
theorem performWebSocketHandshake_succeeds_iff (c : WebSocketClient) (w : World)
    (env : ConnectEnv) (hs : env.sendFails = false) :
    ((performWebSocketHandshake c w env).1 = true ↔
      ∃ received, env.recvResult = some received ∧
        lit "HTTP/1.1 101" <:+: (received.take 1023).takeWhile (· ≠ 0)) ∧
    (∀ received, env.recvResult = some received → received.length ≤ 1023 → 0 ∉ received →
      ((performWebSocketHandshake c w env).1 = true ↔ lit "HTTP/1.1 101" <:+: received)) ∧
    (env.recvResult = none → (performWebSocketHandshake c w env).1 = false) ∧
    (env.recvResult = some [] → (performWebSocketHandshake c w env).1 = false) := by
  have hne : ¬ lit "HTTP/1.1 101" <:+: ([] : Str) := by
    rw [List.infix_nil]
    decide
  have main : ∀ received, env.recvResult = some received →
      ((performWebSocketHandshake c w env).1 = true ↔
        lit "HTTP/1.1 101" <:+: (received.take 1023).takeWhile (· ≠ 0)) := by
    intro received hr
    unfold performWebSocketHandshake
    simp only [hs, hr, Bool.false_eq_true, if_false]
    by_cases hlen : (received.take 1023).length > 0
    · simp only [hlen, if_true, findStr_isSome_iff]
    · have hnil : received.take 1023 = [] := by
        cases h : received.take 1023 with
        | nil => rfl
        | cons x xs => simp [h] at hlen
      rw [if_neg hlen, hnil]
      simp only [List.takeWhile_nil, Bool.false_eq_true, false_iff]
      exact hne
  refine ⟨?_, ?_, ?_, ?_⟩
  · cases hr : env.recvResult with
    | none => simp [performWebSocketHandshake, hs, hr]
    | some received =>
      rw [main received hr]
      simp
  · intro received hr hlen hz
    rw [main received hr, List.take_of_length_le hlen]
    have : received.takeWhile (· ≠ 0) = received := by
      rw [List.takeWhile_eq_self_iff]
      intro b hb
      simp only [ne_eq, decide_not, Bool.not_eq_true', decide_eq_false_iff_not]
      intro h0
      exact hz (h0 ▸ hb)
    rw [this]
  · intro hr
    simp [performWebSocketHandshake, hs, hr]
  · intro hr
    have := main [] hr
    simp only [List.take_nil, List.takeWhile_nil] at this
    cases hv : (performWebSocketHandshake c w env).1
    · rfl
    · exact absurd (this.mp hv) hne

/-- Witness for C12: the answer `HTTP/1.1 101 Switching Protocols`. -/
theorem performWebSocketHandshake_succeeds_iff_witness :
    (serverAnswer (lit "HTTP/1.1 101 Switching Protocols\r\n\r\n")).sendFails = false ∧
    (performWebSocketHandshake connectedClient World.empty
      (serverAnswer (lit "HTTP/1.1 101 Switching Protocols\r\n\r\n"))).1 = true :=
  ⟨rfl, (performWebSocketHandshake_succeeds_iff connectedClient World.empty
    (serverAnswer (lit "HTTP/1.1 101 Switching Protocols\r\n\r\n")) rfl).1.mpr
      ⟨lit "HTTP/1.1 101 Switching Protocols\r\n\r\n", rfl, by decide⟩⟩

/-- C12, the claim as written fails: a read of 33 bytes, a zero byte followed
by `HTTP/1.1 101 Switching Protocols`, contains `HTTP/1.1 101`, and the
handshake fails. -/
theorem performWebSocketHandshake_zero_byte :
    (serverAnswer (0 :: lit "HTTP/1.1 101 Switching Protocols")).sendFails = false ∧
    (0 :: lit "HTTP/1.1 101 Switching Protocols").length ≤ 1023 ∧
    lit "HTTP/1.1 101" <:+: (0 :: lit "HTTP/1.1 101 Switching Protocols") ∧
    (performWebSocketHandshake connectedClient World.empty
      (serverAnswer (0 :: lit "HTTP/1.1 101 Switching Protocols"))).1 = false := by
  decide

/-! ## The port -/

theorem find_none_not_mem (s : Str) (c : Nat) (h : find s c = none) : c ∉ s := by
  induction s with
  | nil => simp
  | cons x xs ih =>
    unfold find at h
    by_cases hx : x = c
    · simp [hx] at h
    · rw [if_neg hx] at h
      have hn : find xs c = none := by
        cases hf : find xs c with
        | none => rfl
        | some q => simp [hf] at h
      simp only [List.mem_cons, not_or]
      exact ⟨fun e => hx e.symm, ih hn⟩

theorem find_some_split (s : Str) (c j : Nat) (h : find s c = some j) :
    c ∉ s.take j ∧ s = s.take j ++ c :: s.drop (j + 1) ∧
      s.take j = s.takeWhile (· ≠ c) := by
  induction s generalizing j with
  | nil => simp [find] at h
  | cons x xs ih =>
    unfold find at h
    by_cases hx : x = c
    · rw [if_pos hx] at h
      simp at h
      subst h
      simp [hx]
    · rw [if_neg hx] at h
      cases hf : find xs c with
      | none => simp [hf] at h
      | some q =>
        simp [hf] at h
        subst h
        obtain ⟨h1, h2, h3⟩ := ih q hf
        refine ⟨?_, ?_, ?_⟩
        · simp only [List.take_succ_cons, List.mem_cons, not_or]
          exact ⟨fun e => hx e.symm, h1⟩
        · simp only [List.take_succ_cons, List.drop_succ_cons, List.cons_append]
          rw [← h2]
        · simp [List.takeWhile_cons, hx, h3]

theorem takeWhile_ne_of_not_mem (s : Str) (c : Nat) (h : c ∉ s) :
    s.takeWhile (· ≠ c) = s := by
  rw [List.takeWhile_eq_self_iff]
  intro b hb
  simp only [ne_eq, decide_not, Bool.not_eq_true', decide_eq_false_iff_not]
  intro e
  exact h (e ▸ hb)

theorem not_mem_takeWhile_ne (s : Str) (c : Nat) : c ∉ s.takeWhile (· ≠ c) := by
  intro h
  have := List.mem_takeWhile_imp h
  simp at this

/-- C13, as amended: every text after `ws://` is accepted, and the port
stored is a text without `/`: the text `80` when the authority (the text up
to the first `/`) holds no `:`, otherwise everything after the first `:` of
the authority, whatever it is. -/
theorem parseWebSocketUrl_port (c : WebSocketClient) (rest : Str) :
    ∃ c', parseWebSocketUrl c (lit "ws://" ++ rest) = some (true, c') ∧
      '/'.toNat ∉ c'.port ∧
      ((':'.toNat ∉ rest.takeWhile (· ≠ '/'.toNat) ∧ c'.port = lit "80") ∨
        (∃ h, ':'.toNat ∉ h ∧ rest.takeWhile (· ≠ '/'.toNat) = h ++ ':'.toNat :: c'.port)) := by
  have e1 : '/'.toNat = 47 := rfl
  have e2 : ':'.toNat = 58 := rfl
  have h80 : (47 : Nat) ∉ lit "80" := by decide
  refine ⟨_, parseWebSocketUrl_accepts c rest, ?_⟩
  simp only [e1, e2]
  have auth : ∀ a : Str, a = rest.takeWhile (· ≠ 47) →
      (47 ∉ (match find a 58 with
        | some colonPos => a.drop (colonPos + 1)
        | none => lit "80")) ∧
      ((58 ∉ a ∧ (match find a 58 with
        | some colonPos => a.drop (colonPos + 1)
        | none => lit "80") = lit "80") ∨
      (∃ h, 58 ∉ h ∧ a = h ++ 58 :: (match find a 58 with
        | some colonPos => a.drop (colonPos + 1)
        | none => lit "80"))) := by
    intro a ha
    have hno : (47 : Nat) ∉ a := ha ▸ not_mem_takeWhile_ne rest 47
    cases hc : find a 58 with
    | none => exact ⟨h80, Or.inl ⟨find_none_not_mem a 58 hc, rfl⟩⟩
    | some j =>
      obtain ⟨h1, h2, -⟩ := find_some_split a 58 j hc
      exact ⟨fun hm => hno (List.mem_of_mem_drop hm), Or.inr ⟨a.take j, h1, h2⟩⟩
  cases hf : find rest 47 with
  | none =>
    have ha := (takeWhile_ne_of_not_mem rest 47 (find_none_not_mem rest 47 hf)).symm
    have := auth rest ha
    rw [← ha]
    cases hc : find rest 58 <;> simpa [hc] using this
  | some i =>
    have ha := (find_some_split rest 47 i hf).2.2
    have := auth (rest.take i) ha
    rw [← ha]
    cases hc : find (rest.take i) 58 <;> simpa [hc] using this

/-- C13, the claim as written fails: `ws://localhost:99999` and
`ws://localhost:http` are accepted, and the ports stored, `99999` and `http`,
are not integers from 1 to 65535. -/
theorem parseWebSocketUrl_port_unchecked :
    (∃ c', parseWebSocketUrl (WebSocketClient.init []) (lit "ws://localhost:99999")
        = some (true, c') ∧ c'.port = lit "99999" ∧ ¬ IsPortNumber c'.port) ∧
    (∃ c', parseWebSocketUrl (WebSocketClient.init []) (lit "ws://localhost:http")
        = some (true, c') ∧ c'.port = lit "http" ∧ ¬ IsPortNumber c'.port) := by
  refine ⟨⟨{ WebSocketClient.init [] with
      host := lit "localhost", port := lit "99999", path := lit "/" }, by decide, rfl, ?_⟩,
    ⟨{ WebSocketClient.init [] with
      host := lit "localhost", port := lit "http", path := lit "/" }, by decide, rfl, ?_⟩⟩
  · rintro ⟨-, -, -, h⟩
    revert h
    decide
  · rintro ⟨-, h, -⟩
    have := h 'h'.toNat (by decide)
    revert this
    decide

/-! ## The stored state of the detector -/

theorem updateState_currentState (d : GameStateDetector) (calls : List GameState)
    (s : GameState) : (updateState d calls s).1.currentState = s := by
  unfold updateState
  by_cases h : s = d.currentState
  · simp [h]
  · cases hcb : d.onStateChanged <;> simp [h, hcb]

theorem detectGameState_returns (host : Option BakkesModPlugin) :
    ∃ s, detectGameState host = some s ∧ s ≠ GameState.unknown := by
  cases host with
  | none => exact ⟨GameState.inMenu, rfl, by decide⟩
  | some plugin =>
    cases hg : plugin.gameWrapper with
    | none => exact ⟨GameState.inMenu, by simp [detectGameState, hg], by decide⟩
    | some gw =>
      obtain ⟨a, b, ⟨n, sp⟩⟩ := gw
      cases hz : sp.eqZero <;> cases a <;> cases b <;> cases n <;>
        simp [detectGameState, isGamePaused, hg, hz]

/-- C14: a new detector stores `unknown`; `detectGameState` returns for every
host, and never `unknown`; and each operation on a detector whose stored
state is not `unknown` returns and leaves a stored state that is not
`unknown`: `detectOnce`, a polling round, the tick hook and the five event
handlers. -/
theorem unknown_not_reentered (d : GameStateDetector) (calls : List GameState)
    (host : Option BakkesModPlugin) (isPaused : Bool) :
    GameStateDetector.new.currentState = GameState.unknown ∧
    (∃ s, detectGameState host = some s ∧ s ≠ GameState.unknown) ∧
    (d.currentState ≠ GameState.unknown →
      (∃ r, detectOnce d calls host = some r ∧ r.1.currentState ≠ GameState.unknown) ∧
      (∃ r, pollingRound d calls host = some r ∧ r.1.currentState ≠ GameState.unknown) ∧
      (∃ r, onTick d calls host = some r ∧ r.1.currentState ≠ GameState.unknown) ∧
      (onMatchStarted d calls).1.currentState ≠ GameState.unknown ∧
      (onMatchEnded d calls).1.currentState ≠ GameState.unknown ∧
      (onReplayStarted d calls).1.currentState ≠ GameState.unknown ∧
      (∃ r, onReplayEnded d calls host = some r ∧ r.1.currentState ≠ GameState.unknown) ∧
      (∃ r, onPauseChanged d calls host isPaused = some r ∧
        r.1.currentState ≠ GameState.unknown)) := by
  obtain ⟨s, hs, hne⟩ := detectGameState_returns host
  have hu : (updateState d calls s).1.currentState ≠ GameState.unknown := by
    rw [updateState_currentState]; exact hne
  refine ⟨rfl, ⟨s, hs, hne⟩, fun hd => ⟨?_, ?_, ?_, ?_, ?_, ?_, ?_, ?_⟩⟩
  · exact ⟨_, by simp [detectOnce, hs], hu⟩
  · exact ⟨_, by simp [pollingRound, hs], hu⟩
  · unfold onTick
    by_cases hm : (!d.usePollingMode && d.isDetecting) = true
    · by_cases hc : s = d.currentState
      · exact ⟨(d, calls), by simp [hm, hs, hc], hd⟩
      · exact ⟨updateState d calls s, by simp [hm, hs, hc], hu⟩
    · exact ⟨(d, calls), by simp [hm], hd⟩
  · rw [onMatchStarted, updateState_currentState]; decide
  · rw [onMatchEnded, updateState_currentState]; decide
  · rw [onReplayStarted, updateState_currentState]; decide
  · exact ⟨_, by simp [onReplayEnded, hs], hu⟩
  · cases isPaused
    · exact ⟨_, by simp [onPauseChanged, hs], hu⟩
    · refine ⟨updateState d calls GameState.gamePaused, by simp [onPauseChanged], ?_⟩
      rw [updateState_currentState]; decide

/-- Witness for C14: a detector that stores `inMenu`, with a host that is in
a game. -/
theorem unknown_not_reentered_witness :
    ({ GameStateDetector.new with currentState := GameState.inMenu }).currentState
      ≠ GameState.unknown ∧
    (∃ r, detectOnce { GameStateDetector.new with currentState := GameState.inMenu } []
        (Signals.host ⟨true, false, ⟨0x3F800000⟩, true⟩) = some r ∧
      r.1.currentState ≠ GameState.unknown) ∧
    detectOnce { GameStateDetector.new with currentState := GameState.inMenu } []
        (Signals.host ⟨true, false, ⟨0x3F800000⟩, true⟩) =
      some ({ GameStateDetector.new with currentState := GameState.inGame }, []) :=
  ⟨by decide,
    ((unknown_not_reentered { GameStateDetector.new with currentState := GameState.inMenu } []
      (Signals.host ⟨true, false, ⟨0x3F800000⟩, true⟩) false).2.2 (by decide)).1,
    by decide⟩

/-- C15: for every stored state, callback record and host, a tick in event
mode (polling off, detection active) and a polling round do the same: both
return, with the same stored state and the same callback invocations, also
when the polling round runs on the detector with the polling flag set. -/
theorem tick_eq_pollingRound (d : GameStateDetector) (calls : List GameState)
    (host : Option BakkesModPlugin)
    (hm : d.usePollingMode = false) (ha : d.isDetecting = true) :
    onTick d calls host = pollingRound d calls host ∧
    ∃ e p, onTick d calls host = some e ∧
      pollingRound { d with usePollingMode := true } calls host = some p ∧
      e.1.currentState = p.1.currentState ∧ e.2 = p.2 := by
  obtain ⟨s, hs, -⟩ := detectGameState_returns host
  have ht : onTick d calls host = some (updateState d calls s) := by
    unfold onTick
    by_cases hc : s = d.currentState
    · simp [hm, ha, hs, hc, updateState]
    · simp [hm, ha, hs, hc]
  refine ⟨by rw [ht]; simp [pollingRound, hs], updateState d calls s,
    updateState { d with usePollingMode := true } calls s, ht, by simp [pollingRound, hs], ?_, ?_⟩
  · rw [updateState_currentState, updateState_currentState]
  · unfold updateState
    by_cases hc : s = d.currentState
    · simp [hc]
    · cases hcb : d.onStateChanged <;> simp [hc, hcb]

/-- Witness for C15: a detector in event mode that stores `inMenu` and has a
callback, with a host that is in a replay. -/
theorem tick_eq_pollingRound_witness :
    onTick { GameStateDetector.new with
        currentState := GameState.inMenu, isDetecting := true, onStateChanged := true } []
        (Signals.host ⟨true, true, ⟨0⟩, true⟩) =
      pollingRound { GameStateDetector.new with
        currentState := GameState.inMenu, isDetecting := true, onStateChanged := true } []
        (Signals.host ⟨true, true, ⟨0⟩, true⟩) ∧
    onTick { GameStateDetector.new with
        currentState := GameState.inMenu, isDetecting := true, onStateChanged := true } []
        (Signals.host ⟨true, true, ⟨0⟩, true⟩) =
      some ({ GameStateDetector.new with
        currentState := GameState.inReplay, isDetecting := true, onStateChanged := true },
        [GameState.inReplay]) :=
  ⟨(tick_eq_pollingRound { GameStateDetector.new with
        currentState := GameState.inMenu, isDetecting := true, onStateChanged := true } []
        (Signals.host ⟨true, true, ⟨0⟩, true⟩) rfl rfl).1,
    by decide⟩

/-- C16, as amended: after the replay-end handler, and after the pause
handler called with `false`, the stored state is what `detectGameState`
returns for the host; after the pause handler called with `true` the stored
state is `gamePaused`, without a look at the host. -/
theorem handlers_recompute (d : GameStateDetector) (calls : List GameState)
    (host : Option BakkesModPlugin) :
    (∃ r, onReplayEnded d calls host = some r ∧
      detectGameState host = some r.1.currentState) ∧
    (∃ r, onPauseChanged d calls host false = some r ∧
      detectGameState host = some r.1.currentState) ∧
    (∃ r, onPauseChanged d calls host true = some r ∧
      r.1.currentState = GameState.gamePaused) := by
  obtain ⟨s, hs, -⟩ := detectGameState_returns host
  refine ⟨⟨updateState d calls s, by simp [onReplayEnded, hs], ?_⟩,
    ⟨updateState d calls s, by simp [onPauseChanged, hs], ?_⟩,
    ⟨updateState d calls GameState.gamePaused, by simp [onPauseChanged], ?_⟩⟩
  · rw [updateState_currentState, hs]
  · rw [updateState_currentState, hs]
  · rw [updateState_currentState]

/-- C16, the claim as written fails: with a host that is in a replay, the
pause handler called with `true` on a detector that stores `inReplay` leaves
`gamePaused`, while `detectGameState` gives `inReplay`. -/
theorem onPauseChanged_true_not_recomputed :
    detectGameState (Signals.host ⟨true, true, ⟨0⟩, true⟩) = some GameState.inReplay ∧
    onPauseChanged { GameStateDetector.new with currentState := GameState.inReplay } []
        (Signals.host ⟨true, true, ⟨0⟩, true⟩) true =
      some ({ GameStateDetector.new with currentState := GameState.gamePaused }, []) := by
  decide

/-! ## Base64 -/

theorem rfc4648Value_char : ∀ v, v < 64 → rfc4648Value (rfc4648Char v) = some v := by
  decide

theorem rfc4648Char_ne_pad : ∀ v, v < 64 → rfc4648Char v ≠ '='.toNat := by
  decide

theorem rfc4648Decode_encode (input : Str) (h : input.WellFormed) :
    rfc4648Decode (rfc4648Encode input) = some input := by
  induction input using rfc4648Encode.induct with
  | case1 => rfl
  | case2 a =>
    have ha : a < 256 := h a (by simp)
    have e1 := rfc4648Value_char (a / 4) (by omega)
    have e2 := rfc4648Value_char (a % 4 * 16) (by omega)
    simp only [rfc4648Encode, rfc4648Decode, e1, e2, if_true, ne_eq, not_true_eq_false, if_false,
      Option.bind_eq_bind, Option.some_bind, pure]
    congr 2
    omega
  | case3 a b =>
    have ha : a < 256 := h a (by simp)
    have hb : b < 256 := h b (by simp)
    have e1 := rfc4648Value_char (a / 4) (by omega)
    have e2 := rfc4648Value_char (a % 4 * 16 + b / 16) (by omega)
    have e3 := rfc4648Value_char (b % 16 * 4) (by omega)
    have n3 := rfc4648Char_ne_pad (b % 16 * 4) (by omega)
    simp only [rfc4648Encode, rfc4648Decode, e1, e2, e3, n3, if_true, ne_eq, not_true_eq_false,
      if_false, Option.bind_eq_bind, Option.some_bind, pure]
    congr 2
    · omega
    · congr 1
      omega
  | case4 a b c rest ih =>
    have ha : a < 256 := h a (by simp)
    have hb : b < 256 := h b (by simp)
    have hc : c < 256 := h c (by simp)
    have hr : Str.WellFormed rest := fun x hx => h x (by simp [hx])
    have e1 := rfc4648Value_char (a / 4) (by omega)
    have e2 := rfc4648Value_char (a % 4 * 16 + b / 16) (by omega)
    have e3 := rfc4648Value_char (b % 16 * 4 + c / 64) (by omega)
    have e4 := rfc4648Value_char (c % 64) (by omega)
    have n4 := rfc4648Char_ne_pad (c % 64) (by omega)
    simp only [rfc4648Encode, rfc4648Decode, e1, e2, e3, e4, n4, ih hr, if_false,
      Option.bind_eq_bind, Option.some_bind, pure]
    congr 2
    · omega
    · congr 1
      · omega
      · congr 1
        omega

theorem rfc4648Encode_length (input : Str) :
    (rfc4648Encode input).length = 4 * ((input.length + 2) / 3) := by
  induction input using rfc4648Encode.induct with
  | case1 => rfl
  | case2 a => simp [rfc4648Encode]
  | case3 a b => simp [rfc4648Encode]
  | case4 a b c rest ih =>
    simp only [rfc4648Encode, List.length_cons, ih]
    omega

theorem base64Char_eq (v : Int) (k n : Nat) (h : v / 2 ^ k % 64 = (n : Int)) :
    base64Char v k = rfc4648Char n := by
  unfold base64Char rfc4648Char
  have e : v >>> k = v / 2 ^ k := by
    rw [Int.shiftRight_eq_div_pow]
    norm_cast
  rw [e, h]
  rfl

theorem base64Step_first (val : Int) (result : Str) (a : Nat) (ha : a < 256) :
    ∃ v : Int, v % 256 = a ∧
      base64Step (val, -6, result) a = (v, -4, result ++ [rfc4648Char (a / 4)]) := by
  refine ⟨wrapInt (wrapInt (val * 256) + a), by unfold wrapInt; omega, ?_⟩
  have hc : base64Char (wrapInt (wrapInt (val * 256) + a)) 2 = rfc4648Char (a / 4) := by
    apply base64Char_eq
    unfold wrapInt
    omega
  simp [base64Step, base64Emit, hc]

theorem base64Step_second (val : Int) (result : Str) (a b : Nat) (hv : val % 256 = a)
    (hb : b < 256) :
    ∃ v : Int, v % 256 = b ∧
      base64Step (val, -4, result) b =
        (v, -2, result ++ [rfc4648Char (a % 4 * 16 + b / 16)]) := by
  refine ⟨wrapInt (wrapInt (val * 256) + b), by unfold wrapInt; omega, ?_⟩
  have hc : base64Char (wrapInt (wrapInt (val * 256) + b)) 4
      = rfc4648Char (a % 4 * 16 + b / 16) := by
    apply base64Char_eq
    unfold wrapInt
    push_cast
    omega
  simp [base64Step, base64Emit, hc]

theorem base64Step_third (val : Int) (result : Str) (b c : Nat) (hv : val % 256 = b)
    (hc : c < 256) :
    ∃ v : Int, base64Step (val, -2, result) c =
      (v, -6, result ++ [rfc4648Char (b % 16 * 4 + c / 64), rfc4648Char (c % 64)]) := by
  refine ⟨wrapInt (wrapInt (val * 256) + c), ?_⟩
  have h1 : base64Char (wrapInt (wrapInt (val * 256) + c)) 6
      = rfc4648Char (b % 16 * 4 + c / 64) := by
    apply base64Char_eq
    unfold wrapInt
    push_cast
    omega
  have h2 : base64Char (wrapInt (wrapInt (val * 256) + c)) 0 = rfc4648Char (c % 64) := by
    apply base64Char_eq
    unfold wrapInt
    push_cast
    omega
  simp [base64Step, base64Emit, h1, h2]

theorem base64Char_last_one (val : Int) (a : Nat) (hv : val % 256 = a) :
    base64Char (wrapInt (val * 256)) 4 = rfc4648Char (a % 4 * 16) := by
  apply base64Char_eq
  unfold wrapInt
  push_cast
  omega

theorem base64Char_last_two (val : Int) (b : Nat) (hv : val % 256 = b) :
    base64Char (wrapInt (val * 256)) 6 = rfc4648Char (b % 16 * 4) := by
  apply base64Char_eq
  unfold wrapInt
  push_cast
  omega

theorem base64Pad_done (result : Str) (h : result.length % 4 = 0) :
    base64Pad 4 result = result := by
  simp [base64Pad, h]

theorem base64Pad_one (result : Str) (h : result.length % 4 = 3) :
    base64Pad 4 result = result ++ ['='.toNat] := by
  have h1 : (result.length + 1) % 4 = 0 := by omega
  simp [base64Pad, h, h1]

theorem base64Pad_two (result : Str) (h : result.length % 4 = 2) :
    base64Pad 4 result = result ++ ['='.toNat, '='.toNat] := by
  have h1 : (result.length + 1) % 4 = 3 := by omega
  have h2 : (result.length + 1 + 1) % 4 = 0 := by omega
  simp [base64Pad, h, h1, h2]

theorem base64Encode_fold (input : Str) (h : input.WellFormed) :
    ∀ (val : Int) (result : Str), result.length % 4 = 0 →
      base64Pad 4
        (if (input.foldl base64Step (val, -6, result)).2.1 > -6 then
          (input.foldl base64Step (val, -6, result)).2.2 ++
            [base64Char (wrapInt ((input.foldl base64Step (val, -6, result)).1 * 256))
              ((input.foldl base64Step (val, -6, result)).2.1 + 8).toNat]
        else (input.foldl base64Step (val, -6, result)).2.2)
      = result ++ rfc4648Encode input := by
  induction input using rfc4648Encode.induct with
  | case1 =>
    intro val result hr
    simp [rfc4648Encode, base64Pad_done result hr]
  | case2 a =>
    intro val result hr
    have ha : a < 256 := h a (by simp)
    obtain ⟨v1, hv1, e1⟩ := base64Step_first val result a ha
    simp only [List.foldl_cons, List.foldl_nil, e1]
    have hl : (result ++ [rfc4648Char (a / 4)] ++ [rfc4648Char (a % 4 * 16)]).length % 4 = 2 := by
      simp only [List.length_append, List.length_singleton]
      omega
    have := base64Pad_two _ hl
    simpa [rfc4648Encode, base64Char_last_one v1 a hv1] using this
  | case3 a b =>
    intro val result hr
    have ha : a < 256 := h a (by simp)
    have hb : b < 256 := h b (by simp)
    obtain ⟨v1, hv1, e1⟩ := base64Step_first val result a ha
    obtain ⟨v2, hv2, e2⟩ := base64Step_second v1 (result ++ [rfc4648Char (a / 4)]) a b hv1 hb
    simp only [List.foldl_cons, List.foldl_nil, e1, e2]
    have hl : (result ++ [rfc4648Char (a / 4)] ++ [rfc4648Char (a % 4 * 16 + b / 16)] ++
        [rfc4648Char (b % 16 * 4)]).length % 4 = 3 := by
      simp only [List.length_append, List.length_singleton]
      omega
    have := base64Pad_one _ hl
    simpa [rfc4648Encode, base64Char_last_two v2 b hv2] using this
  | case4 a b c rest ih =>
    intro val result hr
    have ha : a < 256 := h a (by simp)
    have hb : b < 256 := h b (by simp)
    have hc : c < 256 := h c (by simp)
    have hrest : Str.WellFormed rest := fun x hx => h x (by simp [hx])
    obtain ⟨v1, hv1, e1⟩ := base64Step_first val result a ha
    obtain ⟨v2, hv2, e2⟩ := base64Step_second v1 (result ++ [rfc4648Char (a / 4)]) a b hv1 hb
    obtain ⟨v3, e3⟩ := base64Step_third v2
      (result ++ [rfc4648Char (a / 4)] ++ [rfc4648Char (a % 4 * 16 + b / 16)]) b c hv2 hc
    simp only [List.foldl_cons, e1, e2, e3]
    have hl : (result ++ [rfc4648Char (a / 4)] ++ [rfc4648Char (a % 4 * 16 + b / 16)] ++
        [rfc4648Char (b % 16 * 4 + c / 64), rfc4648Char (c % 64)]).length % 4 = 0 := by
      simp only [List.length_append, List.length_singleton, List.length_cons, List.length_nil]
      omega
    rw [ih hrest v3 _ hl]
    simp [rfc4648Encode]

theorem base64Encode_eq_rfc4648 (input : Str) (h : input.WellFormed) :
    base64Encode input = rfc4648Encode input := by
  have := base64Encode_fold input h 0 [] rfl
  simpa [base64Encode] using this

theorem rfc4648Encode_padding (input : Str) (h : input.length % 3 = 1) :
    ∃ body, rfc4648Encode input = body ++ ['='.toNat, '='.toNat] := by
  induction input using rfc4648Encode.induct with
  | case1 => simp at h
  | case2 a => exact ⟨[rfc4648Char (a / 4), rfc4648Char (a % 4 * 16)], rfl⟩
  | case3 a b => simp at h
  | case4 a b c rest ih =>
    have hr : rest.length % 3 = 1 := by
      simp only [List.length_cons] at h
      omega
    obtain ⟨body, hb⟩ := ih hr
    exact ⟨rfc4648Char (a / 4) :: rfc4648Char (a % 4 * 16 + b / 16) ::
      rfc4648Char (b % 16 * 4 + c / 64) :: rfc4648Char (c % 64) :: body, by
        simp [rfc4648Encode, hb]⟩

/-- C17: for every string of bytes, `base64Encode`, with its `int`
arithmetic taken modulo `2 ^ 32`, returns the RFC 4648 encoding with `=`
padding; the result has `4 * ceil(n / 3)` characters and decodes to the input;
the handshake key, made from 16 random bytes, has 24 characters, the last two
being `==`, and decodes to those 16 bytes. -/
theorem base64Encode_standard (input : Str) (h : input.WellFormed) :
    base64Encode input = rfc4648Encode input ∧
    (base64Encode input).length = 4 * ((input.length + 2) / 3) ∧
    rfc4648Decode (base64Encode input) = some input ∧
    (∀ env : ConnectEnv, (generateWebSocketKey env).length = 24 ∧
      (generateWebSocketKey env).drop 22 = lit "==" ∧
      rfc4648Decode (generateWebSocketKey env) =
        some ((List.range 16).map fun i => toChar (env.randomBytes i))) := by
  have e := base64Encode_eq_rfc4648 input h
  refine ⟨e, by rw [e, rfc4648Encode_length], by rw [e, rfc4648Decode_encode input h], ?_⟩
  intro env
  have hk : Str.WellFormed ((List.range 16).map fun i => toChar (env.randomBytes i)) := by
    intro b hb
    simp only [List.mem_map] at hb
    obtain ⟨i, -, rfl⟩ := hb
    unfold toChar
    omega
  have hl : ((List.range 16).map fun i => toChar (env.randomBytes i)).length = 16 := by simp
  have e16 := base64Encode_eq_rfc4648 _ hk
  have hlen : (generateWebSocketKey env).length = 24 := by
    unfold generateWebSocketKey
    rw [e16, rfc4648Encode_length, hl]
  have hdec : rfc4648Decode (generateWebSocketKey env) =
      some ((List.range 16).map fun i => toChar (env.randomBytes i)) := by
    unfold generateWebSocketKey
    rw [e16, rfc4648Decode_encode _ hk]
  refine ⟨hlen, ?_, hdec⟩
  obtain ⟨body, hb⟩ := rfc4648Encode_padding _ (by rw [hl])
  unfold generateWebSocketKey at hlen ⊢
  rw [e16] at hlen ⊢
  rw [hb] at hlen ⊢
  have hbody : body.length = 22 := by
    simp only [List.length_append, List.length_cons, List.length_nil] at hlen
    omega
  rw [← hbody, List.drop_left]
  rfl

set_option maxRecDepth 100000 in
/-- Witness for C17: 16 bytes of value 255; after four of them `val` has
wrapped around to `-1`. -/
theorem base64Encode_standard_witness :
    Str.WellFormed (List.replicate 16 255) ∧
    ((List.replicate 4 255).foldl base64Step (0, -6, [])).1 = -1 ∧
    base64Encode (List.replicate 16 255) = lit "/////////////////////w==" ∧
    base64Encode (List.replicate 16 255) = rfc4648Encode (List.replicate 16 255) ∧
    (base64Encode (List.replicate 16 255)).length = 4 * (((List.replicate 16 255).length + 2) / 3) ∧
    rfc4648Decode (base64Encode (List.replicate 16 255)) = some (List.replicate 16 255) :=
  ⟨by unfold Str.WellFormed; decide, by decide, by decide,
    (base64Encode_standard (List.replicate 16 255) (by unfold Str.WellFormed; decide)).1,
    (base64Encode_standard (List.replicate 16 255) (by unfold Str.WellFormed; decide)).2.1,
    (base64Encode_standard (List.replicate 16 255) (by unfold Str.WellFormed; decide)).2.2.1⟩

end TTLxRL
